import Mathlib

/-!
Verification development for the Flappy Bird game core: a shallow embedding
of the `Pipe`, `PipePool`, `Bird` and `Game` classes (object-pooled obstacles,
player physics, state machine and update pipeline), with theorems about the
pool membership invariant, scoring, state gating, collision handling and the
game-loop time delta.

Modelling conventions:
* JS numbers are modelled as exact rationals (`ℚ`).
* JS object identity (references held by the pool's `pool`/`activeObjects`
  arrays) is modelled by a numeric `id` field; freshness of `new Pipe(...)`
  is modelled by the pool's `nextId` counter.
* `Math.random()` draws (the spawn height of a pipe pair) are passed in as
  explicit parameters.
* Purely cosmetic randomized/transcendental state is simplified where no
  claim observes it: the particle lists of a pipe are tracked only by their
  length (creation always appends a fixed count; the randomized ageing of
  existing particles in `Pipe.updateParticles` is not modelled), and the
  `Math.sin`-driven scale wobble of level-2 pipes in `Pipe.updateEffects`
  is omitted.  Rendering, audio, DOM and Firebase code is display/IO-only
  and is not modelled.
-/

inductive PipeType where
  | top
  | bottom
deriving DecidableEq, Repr

/-- Rectangle view of an entity, as read by `Pipe.checkCollision(object)`
(fields `x`, `y`, `width`, `height`). -/
structure Rect where
  x : ℚ
  y : ℚ
  width : ℚ
  height : ℚ
deriving DecidableEq, Repr

/-- Shared configuration constants (`GAME_CONFIG`) consumed by the core. -/
structure GameCfg where
  boardWidth : ℚ
  boardHeight : ℚ
  birdWidth : ℚ
  birdHeight : ℚ
  birdInitialX : ℚ
  birdInitialY : ℚ
  jumpVelocity : ℚ
  gravity : ℚ
  maxFallSpeed : ℚ
  pipeWidth : ℚ
  pipeHeight : ℚ
  pipeInitialX : ℚ
  pipeVelocityX : ℚ
  spawnInterval : ℚ
  pointsPerPipe : ℚ
  level2Threshold : ℚ
  gapSizeL1 : ℚ
  gapSizeL2 : ℚ
deriving DecidableEq, Repr

/-- The per-level `config.LEVELS[level].difficulty.gapSize` lookup. -/
def GameCfg.gapSize (cfg : GameCfg) (level : ℕ) : ℚ :=
  if level ≤ 1 then cfg.gapSizeL1 else cfg.gapSizeL2

/-- The `GAME_CONFIG` object of `main.js` (the values the claims run on). -/
def mainConfig : GameCfg where
  boardWidth := 360
  boardHeight := 640
  birdWidth := 34
  birdHeight := 24
  birdInitialX := 45
  birdInitialY := 320
  jumpVelocity := -6
  gravity := 2/5
  maxFallSpeed := 8
  pipeWidth := 64
  pipeHeight := 512
  pipeInitialX := 360
  pipeVelocityX := -2
  spawnInterval := 1500
  pointsPerPipe := 1
  level2Threshold := 20
  gapSizeL1 := 106
  gapSizeL2 := 106

/-- One half of a top/bottom obstacle pair (class `Pipe`).  `particles` is
the length of the particle array (see the header notes). -/
structure Pipe where
  id : ℕ
  x : ℚ
  y : ℚ
  width : ℚ
  height : ℚ
  type : PipeType
  isBottom : Bool
  level : ℕ
  velocityX : ℚ
  passed : Bool
  scored : Bool
  shake : ℚ
  shakeDecay : ℚ
  opacity : ℚ
  animationProgress : ℚ
  isAnimatingIn : Bool
  particles : ℕ
  timeAlive : ℚ
  distanceTraveled : ℚ
deriving DecidableEq, Repr

/-- The `Pipe` constructor: `new Pipe(config, x, y, type, level)`.  The JS
tracking id `Date.now() + Math.random()` stands for reference identity and
is supplied by the caller (the pool passes a fresh counter value). -/
def mkPipe (cfg : GameCfg) (id : ℕ) (x y : ℚ) (type : PipeType) (level : ℕ) : Pipe where
  id := id
  x := x
  y := y
  width := cfg.pipeWidth
  height := cfg.pipeHeight
  type := type
  isBottom := type == PipeType.bottom
  level := level
  velocityX := cfg.pipeVelocityX
  passed := false
  scored := false
  shake := 0
  shakeDecay := 9/10
  opacity := 1
  animationProgress := 0
  isAnimatingIn := true
  particles := 0
  timeAlive := 0
  distanceTraveled := 0

/-- Source `Pipe.updateEffects`: decay the shake (`shake *= shakeDecay`).  The
level-2 `Math.sin` scale wobble is display-only and omitted. -/
def Pipe.updateEffects (p : Pipe) : Pipe :=
  { p with shake := p.shake * p.shakeDecay }

/-- Source `Pipe.update(deltaTime)`: advance time alive, move horizontally,
advance the entry animation, decay effects; returns the updated pipe and
the return value `this.x + this.width > 0` (still on screen). -/
def Pipe.update (p : Pipe) (deltaTime : ℚ) : Pipe × Bool :=
  let p := { p with timeAlive := p.timeAlive + deltaTime }
  let movement := p.velocityX * deltaTime
  let p := { p with x := p.x + movement,
                    distanceTraveled := p.distanceTraveled + |movement| }
  let p :=
    if p.isAnimatingIn then
      let ap := p.animationProgress + 1/20
      if 1 ≤ ap then { p with animationProgress := 1, isAnimatingIn := false }
      else { p with animationProgress := ap }
    else p
  let p := p.updateEffects
  (p, decide (p.x + p.width > 0))

/-- The AABB overlap test of `Pipe.checkCollision` (strict inequalities). -/
def pipeOverlaps (p : Pipe) (object : Rect) : Bool :=
  decide (object.x < p.x + p.width ∧ object.x + object.width > p.x ∧
          object.y < p.y + p.height ∧ object.y + object.height > p.y)

/-- Source `Pipe.onCollision`: set `shake = 10` and push 8 collision particles. -/
def Pipe.onCollision (p : Pipe) : Pipe :=
  { p with shake := 10, particles := p.particles + 8 }

/-- Source `Pipe.checkCollision(object)`: AABB test against the object; on overlap
the pipe mutates itself through `onCollision` (shake + particles). -/
def Pipe.checkCollision (p : Pipe) (object : Rect) : Pipe × Bool :=
  if pipeOverlaps p object then (p.onCollision, true) else (p, false)

/-- Source `Pipe.checkPassed(object)`: first time the object's leading edge is past
the pipe's trailing edge, latch `passed` and report it. -/
def Pipe.checkPassed (p : Pipe) (object : Rect) : Pipe × Bool :=
  if ¬p.passed ∧ object.x > p.x + p.width then ({ p with passed := true }, true)
  else (p, false)

/-- Source `Pipe.createScoreParticles`: pushes 5 score particles. -/
def Pipe.createScoreParticles (p : Pipe) : Pipe :=
  { p with particles := p.particles + 5 }

/-- Source `Pipe.markScored()`: succeed (and latch `scored`) only if not yet scored;
a success also spawns the score particles. -/
def Pipe.markScored (p : Pipe) : Pipe × Bool :=
  if ¬p.scored then ({ p.createScoreParticles with scored := true }, true)
  else (p, false)

/-- Source `Pipe.isOffScreen(canvasWidth)` (the argument is unused in the source). -/
def Pipe.isOffScreen (p : Pipe) (_canvasWidth : ℚ) : Bool :=
  decide (p.x + p.width < 0)

/-- Source `Pipe.reset(x, y, type, level)`: reposition and clear all per-run state
for reuse (identity, size and velocity are untouched). -/
def Pipe.reset (p : Pipe) (x y : ℚ) (type : PipeType) (level : ℕ) : Pipe :=
  { p with x := x, y := y, type := type, isBottom := type == PipeType.bottom,
           level := level, passed := false, scored := false, shake := 0,
           opacity := 1, animationProgress := 0, isAnimatingIn := true,
           particles := 0, timeAlive := 0, distanceTraveled := 0 }

/-- Source `PipePool.updateLevel` on a single pipe (`Pipe.updateLevel`). -/
def Pipe.updateLevel (p : Pipe) (newLevel : ℕ) : Pipe :=
  if p.level ≠ newLevel then { p with level := newLevel } else p

/-- The object pool for pipes (class `PipePool`).  `pool` is the free array,
`activeObjects` the active array; `nextId` models allocation freshness. -/
structure PipePool where
  cfg : GameCfg
  pool : List Pipe
  activeObjects : List Pipe
  nextId : ℕ
deriving DecidableEq, Repr

/-- Source `PipePool.cleanPipe`: clear particles, visual effects and per-run state
before an object goes back to the free array. -/
def PipePool.cleanPipe (p : Pipe) : Pipe :=
  { p with particles := 0, shake := 0, opacity := 1, animationProgress := 0,
           isAnimatingIn := true, passed := false, scored := false,
           timeAlive := 0, distanceTraveled := 0 }

/-- Source `PipePool.acquire(x, y, type, level)`: pop a free object (`pool.pop()`
takes the last element) and `reset` it, or allocate a fresh `Pipe` when the
pool is exhausted; either way push it onto `activeObjects`. -/
def PipePool.acquire (pp : PipePool) (x y : ℚ) (type : PipeType) (level : ℕ) :
    PipePool × Pipe :=
  match pp.pool.getLast? with
  | some q =>
      let pipe := q.reset x y type level
      ({ pp with pool := pp.pool.dropLast,
                 activeObjects := pp.activeObjects ++ [pipe] }, pipe)
  | none =>
      let pipe := mkPipe pp.cfg pp.nextId x y type level
      ({ pp with activeObjects := pp.activeObjects ++ [pipe],
                 nextId := pp.nextId + 1 }, pipe)

/-- The `indexOf`/`splice` search of `PipePool.release`: remove the first
active pipe whose identity matches, returning it and the remaining list. -/
def releaseGo (target : ℕ) : List Pipe → Option (Pipe × List Pipe)
  | [] => none
  | q :: rest =>
      if q.id == target then some (q, rest)
      else
        match releaseGo target rest with
        | some (r, rest') => some (r, q :: rest')
        | none => none

/-- Source `PipePool.release(pipe)`: move the pipe from `activeObjects` to `pool`
(after `cleanPipe`); return `false` (a no-op) if it is not active. -/
def PipePool.release (pp : PipePool) (p : Pipe) : PipePool × Bool :=
  match releaseGo p.id pp.activeObjects with
  | some (q, rest) =>
      ({ pp with activeObjects := rest,
                 pool := pp.pool ++ [PipePool.cleanPipe q] }, true)
  | none => (pp, false)

/-- Source `PipePool.releaseMultiple(pipes)`: release each in turn, counting the
successes. -/
def PipePool.releaseMultiple (pp : PipePool) (pipes : List Pipe) : PipePool × ℕ :=
  pipes.foldl
    (fun acc p =>
      let r := acc.1.release p
      (r.1, acc.2 + if r.2 then 1 else 0))
    (pp, 0)

/-- Source `PipePool.updateActive(deltaTime)`: run `Pipe.update` on every active
pipe, then release those that reported dead or off screen. -/
def PipePool.updateActive (pp : PipePool) (deltaTime : ℚ) : PipePool :=
  let updated := pp.activeObjects.map (fun p => p.update deltaTime)
  let pp1 := { pp with activeObjects := updated.map Prod.fst }
  let pipesToRelease :=
    (updated.filter (fun r => !r.2 || r.1.isOffScreen pp.cfg.boardWidth)).map Prod.fst
  (pp1.releaseMultiple pipesToRelease).1

/-- The `for (let pipe of activeObjects)` loop of `PipePool.checkCollisions`:
stop at the first colliding pipe (which `onCollision` has just mutated). -/
def checkCollisionsGo (object : Rect) : List Pipe → List Pipe × Option Pipe
  | [] => ([], none)
  | p :: rest =>
      let r := p.checkCollision object
      if r.2 then (r.1 :: rest, some r.1)
      else
        let t := checkCollisionsGo object rest
        (r.1 :: t.1, t.2)

/-- Source `PipePool.checkCollisions(object)`: first active pipe overlapping the
object, or none. -/
def PipePool.checkCollisions (pp : PipePool) (object : Rect) :
    PipePool × Option Pipe :=
  let r := checkCollisionsGo object pp.activeObjects
  ({ pp with activeObjects := r.1 }, r.2)

/-- Source `PipePool.checkPassed(object)`: run `Pipe.checkPassed` on every active
pipe and collect the newly passed ones. -/
def PipePool.checkPassed (pp : PipePool) (object : Rect) :
    PipePool × List Pipe :=
  let results := pp.activeObjects.map (fun p => p.checkPassed object)
  ({ pp with activeObjects := results.map Prod.fst },
   (results.filter (fun r => r.2)).map Prod.fst)

/-- The `forEach` body of `PipePool.processScoring`: one passed pipe is
processed against the accumulated pool and score.  The JS argument is an
object reference; a reference into `activeObjects` is resolved by identity
(so flag mutation is visible through the pool), and a pipe not in the pool
is scored from its own snapshot (the game only ever passes pipes returned
by `checkPassed`, which are active). -/
def psStep (acc : PipePool × ℚ) (p : Pipe) : PipePool × ℚ :=
  match acc.1.activeObjects.find? (fun q => q.id == p.id) with
  | some q =>
      if q.isBottom then
        let m := q.markScored
        ({ acc.1 with activeObjects :=
             acc.1.activeObjects.map (fun r => if r.id == p.id then m.1 else r) },
         acc.2 + if m.2 then acc.1.cfg.pointsPerPipe else 0)
      else acc
  | none =>
      if p.isBottom then
        (acc.1, acc.2 + if (p.markScored).2 then acc.1.cfg.pointsPerPipe else 0)
      else acc

/-- Source `PipePool.processScoring(passedPipes)`: for each passed pipe that is a
bottom half and not yet scored, latch `scored` and add
`SCORING.POINTS_PER_PIPE`. -/
def PipePool.processScoring (pp : PipePool) (passedPipes : List Pipe) :
    PipePool × ℚ :=
  passedPipes.foldl psStep (pp, 0)

/-- Source `PipePool.clear()`: release every active pipe back to the pool. -/
def PipePool.clear (pp : PipePool) : PipePool :=
  (pp.releaseMultiple pp.activeObjects).1

/-- Source `PipePool.updateLevel(newLevel)`: retag every active pipe. -/
def PipePool.updateLevel (pp : PipePool) (newLevel : ℕ) : PipePool :=
  { pp with activeObjects := pp.activeObjects.map (fun p => p.updateLevel newLevel) }

/-- Identities held by the free array. -/
def PipePool.freeIds (pp : PipePool) : List ℕ := pp.pool.map Pipe.id

/-- Identities held by the active array. -/
def PipePool.activeIds (pp : PipePool) : List ℕ := pp.activeObjects.map Pipe.id

/-- Identities of every pipe the pool manages (free or active). -/
def PipePool.ids (pp : PipePool) : List ℕ := pp.freeIds ++ pp.activeIds

/-- Pool well-formedness: each managed object occurs exactly once across the
two arrays, and `nextId` is fresh. -/
def PipePool.wf (pp : PipePool) : Prop :=
  pp.ids.Nodup ∧ ∀ i ∈ pp.ids, i < pp.nextId

/-- The spec's membership invariant: every managed obstacle is in exactly
one of `free` and `active` — never both, never neither. -/
def PipePool.memXor (pp : PipePool) : Prop :=
  ∀ i ∈ pp.ids,
    (i ∈ pp.freeIds ∧ i ∉ pp.activeIds) ∨ (i ∉ pp.freeIds ∧ i ∈ pp.activeIds)

/-- The bird's finite-state labels (class `Bird`, `this.states`). -/
inductive BirdState where
  | idle
  | flying
  | falling
  | dead
deriving DecidableEq, Repr

/-- The player entity (class `Bird`).  `canvasHeight` is the
`this.canvas.height` read by the floor check; the trail stores the centre
points (the per-point alpha is recomputed from the index at render time). -/
structure Bird where
  x : ℚ
  y : ℚ
  width : ℚ
  height : ℚ
  velocityY : ℚ
  gravity : ℚ
  jumpVelocity : ℚ
  maxFallSpeed : ℚ
  canvasHeight : ℚ
  initialX : ℚ
  initialY : ℚ
  currentState : BirdState
  rotation : ℚ
  scale : ℚ
  targetScale : ℚ
  trail : List (ℚ × ℚ)
  totalJumps : ℕ
  timeAlive : ℚ
  maxHeight : ℚ
deriving DecidableEq, Repr

/-- The `Bird` constructor (`new Bird(config, canvas)`). -/
def mkBird (cfg : GameCfg) : Bird where
  x := cfg.birdInitialX
  y := cfg.birdInitialY
  width := cfg.birdWidth
  height := cfg.birdHeight
  velocityY := 0
  gravity := cfg.gravity
  jumpVelocity := cfg.jumpVelocity
  maxFallSpeed := cfg.maxFallSpeed
  canvasHeight := cfg.boardHeight
  initialX := cfg.birdInitialX
  initialY := cfg.birdInitialY
  currentState := BirdState.idle
  rotation := 0
  scale := 1
  targetScale := 1
  trail := []
  totalJumps := 0
  timeAlive := 0
  maxHeight := cfg.birdInitialY

/-- Source `Bird.jump()`: set the upward impulse, enter FLYING, count the jump and
kick the cosmetic scale/rotation. -/
def Bird.jump (b : Bird) : Bird :=
  { b with velocityY := b.jumpVelocity,
           currentState := BirdState.flying,
           totalJumps := b.totalJumps + 1,
           targetScale := 11/10,
           rotation := max (b.rotation - 15) (-25) }

/-- Source `Bird.updateState()`: derive the label from the vertical velocity;
DEAD is untouched. -/
def Bird.updateState (b : Bird) : Bird :=
  if b.currentState = BirdState.dead then b
  else if b.velocityY < -2 then { b with currentState := BirdState.flying }
  else if b.velocityY > 2 then { b with currentState := BirdState.falling }
  else { b with currentState := BirdState.idle }

/-- Source `Bird.updateRotation()`: ease towards a velocity-proportional target
rotation, clamped to ±25 degrees; no-op when DEAD. -/
def Bird.updateRotation (b : Bird) : Bird :=
  if b.currentState = BirdState.dead then b
  else
    let targetRotation := max (min (b.velocityY * 4) 25) (-25)
    { b with rotation := b.rotation + (targetRotation - b.rotation) * (1/10) }

/-- Source `Bird.updateScale()`: ease the scale towards its target, and relax the
target back down to 1. -/
def Bird.updateScale (b : Bird) : Bird :=
  let b := { b with scale := b.scale + (b.targetScale - b.scale) * (1/10) }
  if b.targetScale > 1 then
    { b with targetScale := max (b.targetScale - 1/50) 1 }
  else b

/-- Source `Bird.updateTrail()`: push the centre point, keep at most 8 entries. -/
def Bird.updateTrail (b : Bird) : Bird :=
  let t := b.trail ++ [(b.x + b.width / 2, b.y + b.height / 2)]
  { b with trail := if t.length > 8 then t.tail else t }

/-- Source `Bird.die()`: latch DEAD and zero the velocity. -/
def Bird.die (b : Bird) : Bird :=
  { b with currentState := BirdState.dead, velocityY := 0 }

/-- Source `Bird.update(deltaTime)`: accumulate time alive, apply gravity with the
terminal-fall clamp, integrate the position with a clamp at the top
boundary, track the maximum height, refresh the cosmetic state, and check
the floor: strictly below `canvas.height - height` the bird is clamped to
the floor, dies, and the tick returns `false`. -/
def Bird.update (b : Bird) (deltaTime : ℚ) : Bird × Bool :=
  let b := { b with timeAlive := b.timeAlive + deltaTime }
  let v := min (b.velocityY + b.gravity * deltaTime) b.maxFallSpeed
  let newY := max (b.y + v * deltaTime) 0
  let b := { b with velocityY := v, y := newY, maxHeight := min b.maxHeight newY }
  let b := b.updateState
  let b := b.updateRotation
  let b := b.updateScale
  let b := b.updateTrail
  if b.y > b.canvasHeight - b.height then
    (({ b with y := b.canvasHeight - b.height }).die, false)
  else (b, true)

/-- Source `Bird.reset()`: restore every mutable field to its construction value. -/
def Bird.reset (b : Bird) : Bird :=
  { b with x := b.initialX, y := b.initialY, velocityY := 0, rotation := 0,
           scale := 1, targetScale := 1, currentState := BirdState.idle,
           trail := [], totalJumps := 0, timeAlive := 0,
           maxHeight := b.initialY }

/-- The bird as the rectangle `PipePool.checkCollisions`/`checkPassed` read
from it (`object.x/y/width/height`). -/
def Bird.toRect (b : Bird) : Rect where
  x := b.x
  y := b.y
  width := b.width
  height := b.height

/-- The game states (class `Game`, `this.states`). -/
inductive GState where
  | loading
  | menu
  | playing
  | paused
  | gameOver
deriving DecidableEq, Repr

/-- Session statistics (`this.stats` of `Game`). -/
structure GameStats where
  gamesPlayed : ℕ
  totalScore : ℚ
  totalTime : ℚ
  bestTime : ℚ
  totalJumps : ℕ
deriving DecidableEq, Repr

/-- The game session (class `Game`): state machine, entities, score, level,
clocks and visual effects.  `lastFrameTime`/`deltaTime` belong to the game
loop; wall-clock reads (`performance.now()`) are passed in as `now`. -/
structure Game where
  cfg : GameCfg
  currentState : GState
  previousState : Option GState
  bird : Bird
  pipePool : PipePool
  score : ℚ
  bestScore : ℚ
  isNewRecord : Bool
  currentLevel : ℕ
  levelTransitionTimer : ℚ
  isLevelTransitioning : Bool
  lastFrameTime : ℚ
  deltaTime : ℚ
  gameTime : ℚ
  pausedTime : ℚ
  lastPipeTime : ℚ
  pipeInterval : ℚ
  screenShake : ℚ
  backgroundOffset : ℚ
  stats : GameStats
deriving DecidableEq, Repr

/-- The `deltaTime / 16` normalization (`// Normalizar a ~60fps`) that
`Game.updateGameplay` applies to the raw frame delta before feeding it to
`Bird.update` and `PipePool.updateActive`.  There is no clamp. -/
def Game.normalizedDelta (deltaTime : ℚ) : ℚ := deltaTime / 16

/-- Source `Game.endGame()`: terminal effects — screen shake, statistics, and the
best-score / new-record check (sound and persistence are external). -/
def Game.endGame (g : Game) : Game :=
  let g := { g with screenShake := 20 }
  let st := g.stats
  let st := { st with totalScore := st.totalScore + g.score,
                      totalTime := st.totalTime + g.gameTime,
                      totalJumps := st.totalJumps + g.bird.totalJumps }
  let st := if g.gameTime > st.bestTime then { st with bestTime := g.gameTime } else st
  let g := { g with stats := st }
  if g.score > g.bestScore then
    { g with bestScore := g.score, isNewRecord := true }
  else g

/-- Source `Game.resumeGame()`: resync the frame clock on entering PLAYING. -/
def Game.resumeGame (g : Game) (now : ℚ) : Game :=
  { g with lastFrameTime := now }

/-- Source `Game.pauseGame()`: account the paused time. -/
def Game.pauseGame (g : Game) : Game :=
  { g with pausedTime := g.pausedTime + g.deltaTime }

/-- Source `Game.changeState(newState)`: no-op on a self-transition; otherwise
record the previous state and run the per-state entry action. -/
def Game.changeState (g : Game) (newState : GState) (now : ℚ) : Game :=
  if g.currentState = newState then g
  else
    let g := { g with previousState := some g.currentState,
                      currentState := newState }
    match newState with
    | GState.playing => g.resumeGame now
    | GState.paused => g.pauseGame
    | GState.gameOver => g.endGame
    | _ => g

/-- Source `Game.resetGame()`: restore the bird, clear the pool's active set and
zero the per-run variables. -/
def Game.resetGame (g : Game) : Game :=
  { g with bird := g.bird.reset,
           pipePool := g.pipePool.clear,
           score := 0,
           currentLevel := 1,
           isNewRecord := false,
           gameTime := 0,
           lastPipeTime := 0,
           screenShake := 0,
           backgroundOffset := 0,
           isLevelTransitioning := false,
           levelTransitionTimer := 0 }

/-- Source `Game.startGame()`: reset, enter PLAYING, count the game. -/
def Game.startGame (g : Game) (now : ℚ) : Game :=
  let g := (g.resetGame).changeState GState.playing now
  { g with stats := { g.stats with gamesPlayed := g.stats.gamesPlayed + 1 } }

/-- Source `Game.restart()`: same reset as `startGame`. -/
def Game.restart (g : Game) (now : ℚ) : Game :=
  let g := (g.resetGame).changeState GState.playing now
  { g with stats := { g.stats with gamesPlayed := g.stats.gamesPlayed + 1 } }

/-- Source `Game.pause()`: valid only from PLAYING. -/
def Game.pause (g : Game) (now : ℚ) : Game :=
  if g.currentState = GState.playing then g.changeState GState.paused now else g

/-- Source `Game.resume()`: valid only from PAUSED. -/
def Game.resume (g : Game) (now : ℚ) : Game :=
  if g.currentState = GState.paused then g.changeState GState.playing now else g

/-- Source `Game.createPipePair()`: acquire the top and bottom halves at
`PIPES.INITIAL_X`; the randomized top `y` (`randomY`) is the `spawnY`
parameter, the bottom half sits `PIPES.HEIGHT + gapSize` below it. -/
def Game.createPipePair (g : Game) (spawnY : ℚ) : Game :=
  let r1 := g.pipePool.acquire g.cfg.pipeInitialX spawnY PipeType.top g.currentLevel
  let r2 := r1.1.acquire g.cfg.pipeInitialX
              (spawnY + g.cfg.pipeHeight + g.cfg.gapSize g.currentLevel)
              PipeType.bottom g.currentLevel
  { g with pipePool := r2.1 }

/-- Source `Game.generatePipes()`: spawn a pair once `pipeInterval` has elapsed. -/
def Game.generatePipes (g : Game) (spawnY : ℚ) : Game :=
  if g.gameTime - g.lastPipeTime ≥ g.pipeInterval then
    let g := g.createPipePair spawnY
    { g with lastPipeTime := g.gameTime }
  else g

/-- Source `Game.changeLevel(newLevel)`: enter the level transition and retag the
active pipes. -/
def Game.changeLevel (g : Game) (newLevel : ℕ) : Game :=
  if g.currentLevel = newLevel then g
  else
    { g with currentLevel := newLevel,
             isLevelTransitioning := true,
             levelTransitionTimer := 2000,
             pipePool := g.pipePool.updateLevel newLevel }

/-- Source `Game.checkLevelProgression()`: level 2 once the score reaches the
threshold. -/
def Game.checkLevelProgression (g : Game) : Game :=
  if g.score ≥ g.cfg.level2Threshold ∧ g.currentLevel = 1 then
    g.changeLevel 2
  else g

/-- Source `Game.updateVisualEffects(deltaTime)`: decay the screen shake and run
down the level-transition timer. -/
def Game.updateVisualEffects (g : Game) (deltaTime : ℚ) : Game :=
  let g :=
    if g.screenShake > 0 then
      let s := g.screenShake * (9/10)
      { g with screenShake := if s < 1/10 then 0 else s }
    else g
  if g.isLevelTransitioning then
    let t := g.levelTransitionTimer - deltaTime
    if t ≤ 0 then { g with levelTransitionTimer := t, isLevelTransitioning := false }
    else { g with levelTransitionTimer := t }
  else g

/-- First phase of `Game.updateGameplay`: accumulate `gameTime` and update
the bird with the normalized delta; reports whether the bird survived. -/
def Game.ugBirdPhase (g : Game) (deltaTime : ℚ) : Game × Bool :=
  let g := { g with gameTime := g.gameTime + deltaTime }
  let r := g.bird.update (Game.normalizedDelta deltaTime)
  ({ g with bird := r.1 }, r.2)

/-- Second phase of `Game.updateGameplay`: spawn pipes and advance the
active ones with the normalized delta. -/
def Game.ugPipesPhase (g : Game) (deltaTime spawnY : ℚ) : Game :=
  let g := g.generatePipes spawnY
  { g with pipePool := g.pipePool.updateActive (Game.normalizedDelta deltaTime) }

/-- Third phase of `Game.updateGameplay`: the collision query against the
bird's rectangle. -/
def Game.ugCollisionPhase (g : Game) : Game × Option Pipe :=
  let r := g.pipePool.checkCollisions g.bird.toRect
  ({ g with pipePool := r.1 }, r.2)

/-- Fourth phase of `Game.updateGameplay`: pass detection and scoring. -/
def Game.ugScoringPhase (g : Game) : Game :=
  let r := g.pipePool.checkPassed g.bird.toRect
  let g := { g with pipePool := r.1 }
  if r.2 ≠ [] then
    let s := g.pipePool.processScoring r.2
    let g := { g with pipePool := s.1 }
    if s.2 > 0 then { g with score := g.score + s.2 } else g
  else g

/-- Source `Game.updateGameplay(deltaTime)`: bird physics, then pipe spawning and
motion, then the collision check (terminal, early return), then pass/score
detection, level progression and background scroll. -/
def Game.updateGameplay (g : Game) (deltaTime spawnY now : ℚ) : Game :=
  let b := g.ugBirdPhase deltaTime
  if ¬b.2 then b.1.changeState GState.gameOver now
  else
    let g := b.1.ugPipesPhase deltaTime spawnY
    let c := g.ugCollisionPhase
    if c.2.isSome then c.1.changeState GState.gameOver now
    else
      let g := c.1.ugScoringPhase
      let g := g.checkLevelProgression
      { g with backgroundOffset := g.backgroundOffset - 1/2 }

/-- Source `Game.update(deltaTime)`: gameplay only in PLAYING (PAUSED and every
other state skip it), then the visual effects. -/
def Game.update (g : Game) (deltaTime spawnY now : ℚ) : Game :=
  let g :=
    match g.currentState with
    | GState.playing => g.updateGameplay deltaTime spawnY now
    | _ => g
  g.updateVisualEffects deltaTime

/-- One invocation of the `gameLoop` closure of `Game.start`: compute the
raw frame delta `currentTime - lastFrameTime` (unclamped), store the clock,
and run `update`. -/
def Game.gameLoopStep (g : Game) (currentTime spawnY : ℚ) : Game :=
  let g := { g with deltaTime := currentTime - g.lastFrameTime,
                    lastFrameTime := currentTime }
  g.update g.deltaTime spawnY currentTime

/-! Concrete fixtures used to instantiate the theorems. -/
/-- A top pipe positioned over the bird's column. -/
def pipeTopFx : Pipe := mkPipe mainConfig 0 40 0 PipeType.top 1

/-- A bottom pipe already behind the bird but still on screen. -/
def pipeBehindFx : Pipe := mkPipe mainConfig 1 (-50) 400 PipeType.bottom 1

/-- A freshly constructed session in the PLAYING state with the two fixture
pipes active. -/
def baseGame : Game where
  cfg := mainConfig
  currentState := GState.playing
  previousState := none
  bird := mkBird mainConfig
  pipePool :=
    { cfg := mainConfig, pool := [], activeObjects := [pipeTopFx, pipeBehindFx],
      nextId := 2 }
  score := 0
  bestScore := 0
  isNewRecord := false
  currentLevel := 1
  levelTransitionTimer := 0
  isLevelTransitioning := false
  lastFrameTime := 0
  deltaTime := 0
  gameTime := 0
  pausedTime := 0
  lastPipeTime := 0
  pipeInterval := 1500
  screenShake := 0
  backgroundOffset := 0
  stats := ⟨0, 0, 0, 0, 0⟩

/-- The same session sitting in the MENU state. -/
def menuGame : Game := { baseGame with currentState := GState.menu }

/-- A bird that has already died (the DEAD label is latched). -/
def deadBird : Bird := { mkBird mainConfig with currentState := BirdState.dead }

/-- The vertical position `Bird.update` computes before its floor check:
gravity and terminal-velocity clamp, integration, and the clamp at the top
boundary. -/
def Bird.integratedY (b : Bird) (dt : ℚ) : ℚ :=
  max (b.y + (min (b.velocityY + b.gravity * dt) b.maxFallSpeed) * dt) 0

/-- A bird one tick away from landing exactly on the floor boundary. -/
def floorBird : Bird := { mkBird mainConfig with y := 608, velocityY := 38/5 }

/-- A dead bird clamped to the floor. -/
def deadFloorBird : Bird :=
  { mkBird mainConfig with
    y := 616
    velocityY := 0
    currentState := BirdState.dead }

/-- The observable gameplay core of a pipe: identity, position and the
pass/score flags (everything except the cosmetic shake/particle state). -/
def pipeCore (p : Pipe) : ℕ × ℚ × ℚ × Bool × Bool :=
  (p.id, p.x, p.y, p.passed, p.scored)

/-- The pool holding just the fixture top pipe, and the bird's rectangle. -/
def poolOneActive : PipePool :=
  { cfg := mainConfig, pool := [], activeObjects := [pipeTopFx], nextId := 1 }

/-- The rectangle of a freshly constructed bird. -/
def birdRectFx : Rect := (mkBird mainConfig).toRect

instance PipePool.wfDecidable (pp : PipePool) : Decidable pp.wf :=
  decidable_of_iff (pp.ids.Nodup ∧ ∀ i ∈ pp.ids, i < pp.nextId) Iff.rfl

/-- A small well-formed pool: one free pipe, one active pipe. -/
def poolFx : PipePool :=
  { cfg := mainConfig, pool := [pipeTopFx], activeObjects := [pipeBehindFx],
    nextId := 2 }

/-- Lookup of an active pipe by identity (the object-reference resolution
used by `processScoring`). -/
def PipePool.activeById (pp : PipePool) (i : ℕ) : Option Pipe :=
  pp.activeObjects.find? (fun q => q.id == i)

/-- Repeated invocations of `processScoring` across ticks: run the calls in
order against the evolving pool and total the returned points. -/
def PipePool.processScoringSeq (pp : PipePool) : List (List Pipe) → PipePool × ℚ
  | [] => (pp, 0)
  | c :: cs =>
    let r := pp.processScoring c
    let rest := r.1.processScoringSeq cs
    (rest.1, r.2 + rest.2)

/-- The in-place flag mutation of an active pipe, as seen through the pool:
every stored reference with the given identity now shows the new state. -/
def updActive (pp : PipePool) (i : ℕ) (m : Pipe) : PipePool :=
  { pp with activeObjects := pp.activeObjects.map (fun r => if r.id == i then m else r) }

/-- A pool holding one spawned top/bottom pair. -/
def poolPair : PipePool :=
  { cfg := mainConfig, pool := [], activeObjects := [pipeTopFx, pipeBehindFx],
    nextId := 2 }

/-- A sequence of scoring invocations that repeats and splits the pair. -/
def scoringCalls : List (List Pipe) :=
  [[pipeTopFx], [pipeBehindFx], [pipeBehindFx, pipeTopFx], [pipeBehindFx]]

/-! Helper lemmas: identity preservation of the pipe operations. -/
theorem Pipe.update_id (p : Pipe) (dt : ℚ) : ((p.update dt).1).id = p.id := by
  unfold Pipe.update Pipe.updateEffects
  dsimp only
  split <;> (try split) <;> rfl

theorem Pipe.checkPassed_id (p : Pipe) (r : Rect) :
    ((p.checkPassed r).1).id = p.id := by
  unfold Pipe.checkPassed
  split <;> rfl

theorem Pipe.markScored_id (p : Pipe) : ((p.markScored).1).id = p.id := by
  unfold Pipe.markScored Pipe.createScoreParticles
  split <;> rfl

theorem Pipe.checkCollision_id (p : Pipe) (r : Rect) :
    ((p.checkCollision r).1).id = p.id := by
  unfold Pipe.checkCollision Pipe.onCollision
  split <;> rfl

theorem Pipe.reset_id (p : Pipe) (x y : ℚ) (t : PipeType) (lvl : ℕ) :
    (p.reset x y t lvl).id = p.id := rfl

theorem PipePool.cleanPipe_id (p : Pipe) : (PipePool.cleanPipe p).id = p.id := rfl

theorem Pipe.updateLevel_id (p : Pipe) (lvl : ℕ) : (p.updateLevel lvl).id = p.id := by
  unfold Pipe.updateLevel
  split <;> rfl

/-! Helper lemmas: the `indexOf`/`splice` search `releaseGo`. -/
theorem releaseGo_some {t : ℕ} :
    ∀ {l : List Pipe} {q : Pipe} {rest : List Pipe},
      releaseGo t l = some (q, rest) → q.id = t ∧ l.Perm (q :: rest)
  | [], q, rest => by simp [releaseGo]
  | a :: l, q, rest => by
    unfold releaseGo
    split
    · rename_i hid
      intro h
      obtain ⟨rfl, rfl⟩ : a = q ∧ l = rest := by
        simpa using h
      exact ⟨by simpa using hid, List.Perm.refl _⟩
    · rename_i hid
      cases hrec : releaseGo t l with
      | none => simp [hrec]
      | some pr =>
        obtain ⟨r, rest'⟩ := pr
        intro h
        obtain ⟨h3, h4⟩ : r = q ∧ a :: rest' = rest := by
          simpa [hrec] using h
        obtain ⟨h1, h2⟩ := releaseGo_some hrec
        subst h3
        subst h4
        exact ⟨h1, ((h2.cons a).trans (List.Perm.swap r a rest'))⟩

theorem releaseGo_none {t : ℕ} :
    ∀ {l : List Pipe}, releaseGo t l = none → ∀ p ∈ l, p.id ≠ t
  | [] => by simp
  | a :: l => by
    unfold releaseGo
    split
    · simp
    · rename_i hid
      cases hrec : releaseGo t l with
      | none =>
        intro _ p hp
        rcases List.mem_cons.mp hp with rfl | hmem
        · simpa using hid
        · exact releaseGo_none hrec p hmem
      | some pr => simp [hrec]

theorem releaseGo_isSome {t : ℕ} :
    ∀ {l : List Pipe}, ∀ p ∈ l, p.id = t → (releaseGo t l).isSome
  | [] => by simp
  | a :: l => by
    intro p hp hpt
    unfold releaseGo
    split
    · simp
    · rename_i hid
      rcases List.mem_cons.mp hp with rfl | hmem
      · exact absurd (by simpa using hpt) (by simpa using hid)
      · have := releaseGo_isSome p hmem hpt
        cases hrec : releaseGo t l with
        | none => rw [hrec] at this; simp at this
        | some pr => simp [hrec]

/-! Helper lemmas: pool well-formedness is preserved by every operation. -/
theorem PipePool.perm_wf {pp pq : PipePool} (hperm : pq.ids.Perm pp.ids)
    (hnext : pp.nextId ≤ pq.nextId) (h : pp.wf) : pq.wf := by
  refine ⟨hperm.nodup_iff.mpr h.1, fun i hi => ?_⟩
  exact lt_of_lt_of_le (h.2 i (hperm.mem_iff.mp hi)) hnext

theorem PipePool.wf_memXor (pp : PipePool) (h : pp.wf) : pp.memXor := by
  intro i hi
  have hnd := h.1
  rw [PipePool.ids, List.nodup_append] at hnd
  rw [PipePool.ids, List.mem_append] at hi
  rcases hi with hf | ha
  · exact Or.inl ⟨hf, fun hc => hnd.2.2 hf hc⟩
  · exact Or.inr ⟨fun hc => hnd.2.2 hc ha, ha⟩

theorem PipePool.acquire_ids (pp : PipePool) (x y : ℚ) (t : PipeType) (lvl : ℕ) :
    ((pp.acquire x y t lvl).1).ids.Perm pp.ids ∨
      (pp.pool = [] ∧ ((pp.acquire x y t lvl).1).ids = pp.ids ++ [pp.nextId]) := by
  unfold PipePool.acquire
  cases hl : pp.pool.getLast? with
  | some q =>
      left
      have hpool : pp.pool.dropLast ++ [q] = pp.pool :=
        List.dropLast_append_getLast? q hl
      dsimp [PipePool.ids, PipePool.freeIds, PipePool.activeIds]
      rw [List.map_append]
      have hx : List.map Pipe.id [q.reset x y t lvl] = [q.id] := by
        simp [Pipe.reset_id]
      rw [hx]
      have h1 : (pp.activeObjects.map Pipe.id ++ [q.id]).Perm
          ([q.id] ++ pp.activeObjects.map Pipe.id) := List.perm_append_comm
      have h2 := h1.append_left (pp.pool.dropLast.map Pipe.id)
      have h3 : pp.pool.dropLast.map Pipe.id ++
            ([q.id] ++ pp.activeObjects.map Pipe.id) =
          pp.pool.map Pipe.id ++ pp.activeObjects.map Pipe.id := by
        rw [← List.append_assoc]
        have h4 : pp.pool.dropLast.map Pipe.id ++ [q.id] = pp.pool.map Pipe.id := by
          rw [← hpool]
          simp
        rw [h4]
      rw [h3] at h2
      exact h2
  | none =>
      right
      have : pp.pool = [] := by
        cases hp : pp.pool with
        | nil => rfl
        | cons a l => rw [hp] at hl; simp [List.getLast?_concat] at hl
      refine ⟨this, ?_⟩
      dsimp [PipePool.ids, PipePool.freeIds, PipePool.activeIds]
      rw [this]
      simp [mkPipe]

theorem PipePool.acquire_wf (pp : PipePool) (x y : ℚ) (t : PipeType) (lvl : ℕ)
    (h : pp.wf) : ((pp.acquire x y t lvl).1).wf := by
  rcases PipePool.acquire_ids pp x y t lvl with hperm | ⟨hnil, hids⟩
  · refine PipePool.perm_wf hperm ?_ h
    unfold PipePool.acquire
    cases hl : pp.pool.getLast? with
    | some q => exact le_refl _
    | none => exact Nat.le_succ _
  · constructor
    · rw [hids, List.nodup_append]
      refine ⟨h.1, List.nodup_singleton _, fun i hi hc => ?_⟩
      have := h.2 i hi
      simp at hc
      omega
    · intro i hi
      rw [hids, List.mem_append] at hi
      have hnext : ((pp.acquire x y t lvl).1).nextId = pp.nextId + 1 := by
        unfold PipePool.acquire
        cases hl : pp.pool.getLast? with
        | some q => rw [hnil] at hl; simp at hl
        | none => rfl
      rw [hnext]
      rcases hi with hi | hi
      · exact Nat.lt_succ_of_lt (h.2 i hi)
      · simp at hi
        omega

theorem PipePool.release_ids (pp : PipePool) (p : Pipe) :
    ((pp.release p).1).ids.Perm pp.ids ∧ ((pp.release p).1).nextId = pp.nextId := by
  unfold PipePool.release
  cases hr : releaseGo p.id pp.activeObjects with
  | none => exact ⟨List.Perm.refl _, rfl⟩
  | some qr =>
      obtain ⟨q, rest⟩ := qr
      obtain ⟨hq, hperm⟩ := releaseGo_some hr
      refine ⟨?_, rfl⟩
      dsimp [PipePool.ids, PipePool.freeIds, PipePool.activeIds]
      have hmap : (pp.activeObjects.map Pipe.id).Perm (q.id :: rest.map Pipe.id) := by
        simpa using hperm.map Pipe.id
      have h3 : (pp.pool ++ [PipePool.cleanPipe q]).map Pipe.id ++ rest.map Pipe.id =
          pp.pool.map Pipe.id ++ (q.id :: rest.map Pipe.id) := by
        rw [List.map_append, List.append_assoc]
        simp [PipePool.cleanPipe_id]
      rw [h3]
      exact (hmap.symm).append_left _

theorem PipePool.release_wf (pp : PipePool) (p : Pipe) (h : pp.wf) :
    ((pp.release p).1).wf := by
  obtain ⟨hperm, hnext⟩ := PipePool.release_ids pp p
  exact PipePool.perm_wf hperm (le_of_eq hnext.symm) h

theorem PipePool.releaseMultiple_fst (ps : List Pipe) :
    ∀ (pp : PipePool) (n : ℕ),
      (ps.foldl (fun acc p =>
          let r := acc.1.release p
          (r.1, acc.2 + if r.2 then 1 else 0)) (pp, n)).1 =
        ps.foldl (fun q p => (q.release p).1) pp := by
  induction ps with
  | nil => intro pp n; rfl
  | cons a ps ih => intro pp n; exact ih _ _

theorem PipePool.releaseFold_wf (ps : List Pipe) :
    ∀ (pp : PipePool), pp.wf → (ps.foldl (fun q p => (q.release p).1) pp).wf := by
  induction ps with
  | nil => intro pp h; exact h
  | cons a ps ih => intro pp h; exact ih _ (PipePool.release_wf pp a h)

theorem PipePool.releaseMultiple_wf (pp : PipePool) (ps : List Pipe)
    (h : pp.wf) : ((pp.releaseMultiple ps).1).wf := by
  unfold PipePool.releaseMultiple
  rw [PipePool.releaseMultiple_fst]
  exact PipePool.releaseFold_wf ps pp h

theorem updatedIds (l : List Pipe) (dt : ℚ) :
    ((l.map (fun p => p.update dt)).map Prod.fst).map Pipe.id = l.map Pipe.id := by
  rw [List.map_map, List.map_map]
  refine List.map_congr_left ?_
  intro a _
  show ((a.update dt).1).id = a.id
  exact Pipe.update_id a dt

theorem PipePool.updateActive_wf (pp : PipePool) (dt : ℚ) (h : pp.wf) :
    (pp.updateActive dt).wf := by
  unfold PipePool.updateActive
  refine PipePool.releaseMultiple_wf _ _ ?_
  refine ⟨?_, ?_⟩
  · dsimp [PipePool.ids, PipePool.freeIds, PipePool.activeIds]
    rw [updatedIds]
    exact h.1
  · intro i hi
    dsimp [PipePool.ids, PipePool.freeIds, PipePool.activeIds] at hi
    rw [updatedIds] at hi
    exact h.2 i hi

theorem PipePool.clear_wf (pp : PipePool) (h : pp.wf) : (pp.clear).wf :=
  PipePool.releaseMultiple_wf pp pp.activeObjects h

theorem PipePool.release_twice (pp : PipePool) (p : Pipe) (h : pp.wf)
    (hs : (pp.release p).2 = true) :
    (((pp.release p).1).release p).2 = false ∧
      (((pp.release p).1).release p).1 = (pp.release p).1 := by
  have hact := h.1
  rw [PipePool.ids, List.nodup_append] at hact
  unfold PipePool.release at hs ⊢
  cases hr : releaseGo p.id pp.activeObjects with
  | none => rw [hr] at hs; simp at hs
  | some qr =>
      obtain ⟨q, rest⟩ := qr
      obtain ⟨hq, hperm⟩ := releaseGo_some hr
      have hnd : (q.id :: rest.map Pipe.id).Nodup := by
        have := (hperm.map Pipe.id).nodup_iff.mp hact.2.1
        simpa using this
      have hnone : releaseGo p.id rest = none := by
        cases hr2 : releaseGo p.id rest with
        | none => rfl
        | some qr2 =>
            obtain ⟨q2, rest2⟩ := qr2
            obtain ⟨hq2, hperm2⟩ := releaseGo_some hr2
            exfalso
            have hmem : q2 ∈ rest := (hperm2.mem_iff).mpr (List.mem_cons_self _ _)
            have : q2.id ∈ rest.map Pipe.id := List.mem_map_of_mem Pipe.id hmem
            rw [hq2, ← hq] at this
            exact (List.nodup_cons.mp hnd).1 this
      simp [hr, hnone]

/-! Helper lemmas: projections preserved by the update-pipeline phases. -/
theorem Game.ugBirdPhase_proj (g : Game) (dt : ℚ) :
    ((g.ugBirdPhase dt).1).score = g.score ∧
    ((g.ugBirdPhase dt).1).currentState = g.currentState ∧
    ((g.ugBirdPhase dt).1).deltaTime = g.deltaTime ∧
    ((g.ugBirdPhase dt).1).pipePool = g.pipePool :=
  ⟨rfl, rfl, rfl, rfl⟩

theorem Game.ugPipesPhase_proj (g : Game) (dt sp : ℚ) :
    (g.ugPipesPhase dt sp).score = g.score ∧
    (g.ugPipesPhase dt sp).currentState = g.currentState ∧
    (g.ugPipesPhase dt sp).deltaTime = g.deltaTime ∧
    (g.ugPipesPhase dt sp).bird = g.bird := by
  unfold Game.ugPipesPhase Game.generatePipes Game.createPipePair
  split <;> exact ⟨rfl, rfl, rfl, rfl⟩

theorem Game.ugCollisionPhase_proj (g : Game) :
    ((g.ugCollisionPhase).1).score = g.score ∧
    ((g.ugCollisionPhase).1).currentState = g.currentState ∧
    ((g.ugCollisionPhase).1).deltaTime = g.deltaTime ∧
    ((g.ugCollisionPhase).1).bird = g.bird :=
  ⟨rfl, rfl, rfl, rfl⟩

theorem Game.ugScoringPhase_proj (g : Game) :
    (g.ugScoringPhase).currentState = g.currentState ∧
    (g.ugScoringPhase).deltaTime = g.deltaTime ∧
    (g.ugScoringPhase).bird = g.bird := by
  unfold Game.ugScoringPhase
  dsimp only
  split <;> (try split) <;> exact ⟨rfl, rfl, rfl⟩

theorem Game.checkLevelProgression_proj (g : Game) :
    (g.checkLevelProgression).score = g.score ∧
    (g.checkLevelProgression).currentState = g.currentState ∧
    (g.checkLevelProgression).deltaTime = g.deltaTime ∧
    (g.checkLevelProgression).bird = g.bird := by
  unfold Game.checkLevelProgression Game.changeLevel
  split <;> (try split) <;> exact ⟨rfl, rfl, rfl, rfl⟩

theorem Game.updateVisualEffects_proj (g : Game) (dt : ℚ) :
    (g.updateVisualEffects dt).score = g.score ∧
    (g.updateVisualEffects dt).currentState = g.currentState ∧
    (g.updateVisualEffects dt).deltaTime = g.deltaTime ∧
    (g.updateVisualEffects dt).bird = g.bird ∧
    (g.updateVisualEffects dt).pipePool = g.pipePool := by
  unfold Game.updateVisualEffects
  dsimp only
  split <;> (try dsimp only) <;> split <;> (try split) <;>
    exact ⟨rfl, rfl, rfl, rfl, rfl⟩

theorem Game.endGame_proj (g : Game) :
    (g.endGame).score = g.score ∧
    (g.endGame).currentState = g.currentState ∧
    (g.endGame).deltaTime = g.deltaTime ∧
    (g.endGame).bird = g.bird ∧
    (g.endGame).pipePool = g.pipePool := by
  unfold Game.endGame
  dsimp only
  split <;> (try split) <;> exact ⟨rfl, rfl, rfl, rfl, rfl⟩

theorem Game.changeState_gameOver (g : Game) (now : ℚ) :
    (g.changeState GState.gameOver now).score = g.score ∧
    (g.changeState GState.gameOver now).currentState = GState.gameOver ∧
    (g.changeState GState.gameOver now).deltaTime = g.deltaTime ∧
    (g.changeState GState.gameOver now).bird = g.bird := by
  unfold Game.changeState
  split
  · rename_i h
    exact ⟨rfl, h, rfl, rfl⟩
  · dsimp only
    have hp := Game.endGame_proj
      { g with previousState := some g.currentState, currentState := GState.gameOver }
    exact ⟨hp.1, hp.2.1, hp.2.2.1, hp.2.2.2.1⟩

/-- C2: for every game state s in {Menu, Paused, GameOver} and every time
delta dt, invoking the update pipeline (Game.update) while the current
state is s leaves the Player, every obstacle (the whole pool) and the score
unchanged; gameplay mutation occurs only when the state is Playing. -/
theorem C2_state_gated_updates (g : Game) (dt sp now : ℚ)
    (h : g.currentState = GState.menu ∨ g.currentState = GState.paused ∨
         g.currentState = GState.gameOver) :
    (g.update dt sp now).bird = g.bird ∧
    (g.update dt sp now).pipePool = g.pipePool ∧
    (g.update dt sp now).score = g.score := by
  have hmain : g.update dt sp now = g.updateVisualEffects dt := by
    unfold Game.update
    rcases h with h | h | h <;> rw [h]
  rw [hmain]
  have hp := Game.updateVisualEffects_proj g dt
  exact ⟨hp.2.2.2.1, hp.2.2.2.2, hp.1⟩

/-- Witness for C2 at a concrete MENU-state session. -/
theorem C2_state_gated_updates_witness :
    (menuGame.update 16 0 0).bird = menuGame.bird ∧
    (menuGame.update 16 0 0).pipePool = menuGame.pipePool ∧
    (menuGame.update 16 0 0).score = menuGame.score :=
  C2_state_gated_updates menuGame 16 0 0 (Or.inl rfl)

/-! The raw frame delta: helper lemmas showing `update` never rewrites
`deltaTime` (only the game loop does). -/
theorem Game.updateGameplay_deltaTime (g : Game) (dt sp now : ℚ) :
    (g.updateGameplay dt sp now).deltaTime = g.deltaTime := by
  unfold Game.updateGameplay
  dsimp only
  split
  · rw [(Game.changeState_gameOver _ now).2.2.1]
    rfl
  · split
    · rw [(Game.changeState_gameOver _ now).2.2.1,
        (Game.ugCollisionPhase_proj _).2.2.1,
        (Game.ugPipesPhase_proj _ dt sp).2.2.1]
      rfl
    · show ((((g.ugBirdPhase dt).1.ugPipesPhase dt sp).ugCollisionPhase.1.ugScoringPhase).checkLevelProgression).deltaTime = g.deltaTime
      rw [(Game.checkLevelProgression_proj _).2.2.1,
        (Game.ugScoringPhase_proj _).2.1,
        (Game.ugCollisionPhase_proj _).2.2.1,
        (Game.ugPipesPhase_proj _ dt sp).2.2.1]
      rfl

theorem Game.update_deltaTime (g : Game) (dt sp now : ℚ) :
    (g.update dt sp now).deltaTime = g.deltaTime := by
  unfold Game.update
  dsimp only
  rw [(Game.updateVisualEffects_proj _ dt).2.2.1]
  cases h : g.currentState <;> dsimp only
  exact Game.updateGameplay_deltaTime g dt sp now

theorem Game.gameLoopStep_deltaTime (g : Game) (c sp : ℚ) :
    (g.gameLoopStep c sp).deltaTime = c - g.lastFrameTime := by
  unfold Game.gameLoopStep
  dsimp only
  rw [Game.update_deltaTime]

/-- C6 (amended): each game-loop invocation computes the raw delta as
`currentTime - lastTime`, and the only normalization applied before physics
is the division by 16 (`Game.normalizedDelta`); there is no clamp, so the
applied delta grows without bound in the raw delta (e.g. a 160-second stall
is fed to physics as 10000 frame units). -/
theorem C6_delta_computed_unclamped :
    (∀ (g : Game) (c sp : ℚ),
        (g.gameLoopStep c sp).deltaTime = c - g.lastFrameTime) ∧
    (∀ d : ℚ, Game.normalizedDelta d = d / 16) ∧
    Game.normalizedDelta 160000 = 10000 := by
  refine ⟨fun g c sp => Game.gameLoopStep_deltaTime g c sp, fun d => rfl, ?_⟩
  unfold Game.normalizedDelta
  norm_num

/-- C6 (counterexample): there is no bound at all on the physics delta a
single game-loop invocation can apply — the claim that the delta is clamped
to a configured maximum before being applied to physics is false. -/
theorem C6_no_clamp_counterexample :
    ¬ ∃ M : ℚ, ∀ (g : Game) (c sp : ℚ), 0 ≤ c - g.lastFrameTime →
        Game.normalizedDelta ((g.gameLoopStep c sp).deltaTime) ≤ M := by
  rintro ⟨M, h⟩
  have hl : baseGame.lastFrameTime = 0 := rfl
  have hm0 : (0:ℚ) ≤ max M 0 := le_max_right M 0
  have h0 := h baseGame (16 * max M 0 + 16) 0 (by rw [hl]; linarith)
  rw [Game.gameLoopStep_deltaTime, hl, Game.normalizedDelta] at h0
  have hdiv : (16 * max M 0 + 16 - 0) / 16 = max M 0 + 1 := by ring
  rw [hdiv] at h0
  have hm : M ≤ max M 0 := le_max_left M 0
  linarith

/-- C8 (counterexample): `Bird.jump` unconditionally relabels the bird
FLYING — invoked on a DEAD bird it un-sets DEAD, so the claim that no
operation other than reset changes the state away from Dead is false. -/
theorem C8_jump_revives_counterexample :
    deadBird.currentState = BirdState.dead ∧
    (deadBird.jump).currentState = BirdState.flying ∧
    (deadBird.jump).currentState ≠ BirdState.dead :=
  ⟨rfl, rfl, by decide⟩

/-- C8 (amended): the label is derived each tick from the velocity
(`updateState`), and DEAD is sticky under `tick`/`updateState` — but
`Bird.jump` unconditionally sets FLYING, even from DEAD (in the game,
`jump` is only dispatched while the session is in the PLAYING state). -/
theorem C8_dead_sticky_except_jump (b : Bird) (dt : ℚ)
    (h : b.currentState = BirdState.dead) :
    ((b.update dt).1).currentState = BirdState.dead ∧
    (b.updateState).currentState = BirdState.dead ∧
    (∀ b2 : Bird, (b2.jump).currentState = BirdState.flying) ∧
    (∀ b2 : Bird, b2.currentState ≠ BirdState.dead →
      (b2.updateState).currentState =
        (if b2.velocityY < -2 then BirdState.flying
         else if b2.velocityY > 2 then BirdState.falling
         else BirdState.idle)) := by
  refine ⟨?_, ?_, fun b2 => rfl, ?_⟩
  · unfold Bird.update Bird.updateState Bird.updateRotation Bird.updateScale
      Bird.updateTrail Bird.die
    dsimp only
    rw [if_pos h]
    repeat' split
    all_goals (first | exact h | rfl)
  · unfold Bird.updateState
    rw [if_pos h]
    exact h
  · intro b2 h2
    unfold Bird.updateState
    rw [if_neg h2]
    split <;> (try split) <;> rfl

/-- Witness for C8: the concrete dead bird, plus the label derivation and
`jump` relabelling instantiated at a freshly constructed bird. -/
theorem C8_dead_sticky_except_jump_witness :
    ((deadBird.update 1).1).currentState = BirdState.dead ∧
    (deadBird.updateState).currentState = BirdState.dead ∧
    ((mkBird mainConfig).jump).currentState = BirdState.flying ∧
    ((mkBird mainConfig).updateState).currentState =
      (if (mkBird mainConfig).velocityY < -2 then BirdState.flying
       else if (mkBird mainConfig).velocityY > 2 then BirdState.falling
       else BirdState.idle) :=
  ⟨(C8_dead_sticky_except_jump deadBird 1 rfl).1,
   (C8_dead_sticky_except_jump deadBird 1 rfl).2.1,
   (C8_dead_sticky_except_jump deadBird 1 rfl).2.2.1 (mkBird mainConfig),
   (C8_dead_sticky_except_jump deadBird 1 rfl).2.2.2 (mkBird mainConfig)
     (by decide)⟩

theorem Bird.cosmetics_proj (b : Bird) :
    ((((b.updateState).updateRotation).updateScale).updateTrail).y = b.y ∧
    ((((b.updateState).updateRotation).updateScale).updateTrail).canvasHeight = b.canvasHeight ∧
    ((((b.updateState).updateRotation).updateScale).updateTrail).height = b.height ∧
    ((((b.updateState).updateRotation).updateScale).updateTrail).timeAlive = b.timeAlive ∧
    ((((b.updateState).updateRotation).updateScale).updateTrail).maxHeight = b.maxHeight := by
  unfold Bird.updateState Bird.updateRotation Bird.updateScale Bird.updateTrail
  dsimp only
  split_ifs <;> exact ⟨rfl, rfl, rfl, rfl, rfl⟩

theorem Bird.update_snd (b : Bird) (dt : ℚ) :
    (b.update dt).2 = decide (¬ (b.integratedY dt > b.canvasHeight - b.height)) := by
  unfold Bird.update
  dsimp only
  rw [(Bird.cosmetics_proj _).1, (Bird.cosmetics_proj _).2.1,
    (Bird.cosmetics_proj _).2.2.1]
  unfold Bird.integratedY
  dsimp only
  split
  · rename_i hc
    simp [hc]
  · rename_i hc
    simp [hc]

theorem Bird.update_timeAlive (b : Bird) (dt : ℚ) :
    ((b.update dt).1).timeAlive = b.timeAlive + dt := by
  unfold Bird.update Bird.die
  dsimp only
  split
  · rw [(Bird.cosmetics_proj _).2.2.2.1]
  · rw [(Bird.cosmetics_proj _).2.2.2.1]

theorem Bird.update_maxHeight (b : Bird) (dt : ℚ) :
    ((b.update dt).1).maxHeight = min b.maxHeight (b.integratedY dt) := by
  unfold Bird.update Bird.die Bird.integratedY
  dsimp only
  split
  · rw [(Bird.cosmetics_proj _).2.2.2.2]
  · rw [(Bird.cosmetics_proj _).2.2.2.2]

theorem Bird.cosmetics_dead (b : Bird) (h : b.currentState = BirdState.dead) :
    ((((b.updateState).updateRotation).updateScale).updateTrail).currentState =
      BirdState.dead := by
  unfold Bird.updateState Bird.updateRotation Bird.updateScale Bird.updateTrail
  dsimp only
  split_ifs <;> simp_all

theorem Bird.update_dead (b : Bird) (dt : ℚ) (h : b.currentState = BirdState.dead) :
    ((b.update dt).1).currentState = BirdState.dead := by
  unfold Bird.update Bird.die
  dsimp only
  split
  · rfl
  · exact Bird.cosmetics_dead _ h

set_option maxRecDepth 40000 in
/-- C5 (counterexample): with `y = 608` and an incoming velocity that
integrates to exactly the floor (`y + height = canvas.height` after the
tick), `Bird.update` returns `true` — the bird reaches the floor boundary
but death is NOT reported, because the source tests `y > canvas.height -
height` strictly. -/
theorem C5_floor_equality_counterexample :
    ((floorBird.update 1).1).y + floorBird.height = floorBird.canvasHeight ∧
    (floorBird.update 1).2 = true ∧
    ((floorBird.update 1).1).currentState ≠ BirdState.dead := by
  with_unfolding_all decide

/-- C5 (amended): `tick` reports death exactly when the integrated position
strictly exceeds the floor (`integratedY > canvas.height - height`); the
boundary case `y + height == floorY` stays alive.  Death is not latched by
the return value: a later tick on the floor-clamped dead bird reports death
again and still accumulates `timeAlive` (while `maxHeight` stays put once
at most the floor height). -/
theorem C5_death_on_floor_amended :
    (∀ (b : Bird) (dt : ℚ),
        ((b.update dt).2 = false ↔ b.integratedY dt > b.canvasHeight - b.height)) ∧
    (∀ (b : Bird) (dt : ℚ), b.integratedY dt = b.canvasHeight - b.height →
        (b.update dt).2 = true) ∧
    (∀ (b : Bird) (dt : ℚ),
        b.currentState = BirdState.dead →
        b.y = b.canvasHeight - b.height →
        b.velocityY = 0 →
        0 < dt → 0 < b.gravity → 0 < b.maxFallSpeed →
        0 < b.height → b.height < b.canvasHeight →
        b.maxHeight ≤ b.canvasHeight - b.height →
        (b.update dt).2 = false ∧
        ((b.update dt).1).timeAlive = b.timeAlive + dt ∧
        ((b.update dt).1).maxHeight = b.maxHeight ∧
        ((b.update dt).1).currentState = BirdState.dead) := by
  refine ⟨fun b dt => ?_, fun b dt h => ?_, fun b dt hdead hy hv hdt hg hmf hh hhc hmh => ?_⟩
  · rw [Bird.update_snd]
    simp
  · rw [Bird.update_snd, h]
    simp
  · have hF : 0 < b.canvasHeight - b.height := by linarith
    have hvel : 0 < min (b.velocityY + b.gravity * dt) b.maxFallSpeed := by
      rw [hv]
      refine lt_min ?_ hmf
      have := mul_pos hg hdt
      linarith
    have hiy : b.integratedY dt =
        b.canvasHeight - b.height + min (b.velocityY + b.gravity * dt) b.maxFallSpeed * dt := by
      unfold Bird.integratedY
      rw [hy]
      refine max_eq_left ?_
      have := mul_pos hvel hdt
      linarith
    have hgt : b.integratedY dt > b.canvasHeight - b.height := by
      rw [hiy]
      have := mul_pos hvel hdt
      linarith
    refine ⟨?_, Bird.update_timeAlive b dt, ?_, Bird.update_dead b dt hdead⟩
    · rw [Bird.update_snd]
      simpa using hgt
    · rw [Bird.update_maxHeight]
      exact min_eq_left (by linarith)

set_option maxRecDepth 40000 in
/-- Witness for C5 (amended) at a concrete dead bird resting on the floor. -/
theorem C5_death_on_floor_amended_witness :
    ((deadFloorBird.update 1).2 = false ∧
     ((deadFloorBird.update 1).1).timeAlive = deadFloorBird.timeAlive + 1 ∧
     ((deadFloorBird.update 1).1).maxHeight = deadFloorBird.maxHeight ∧
     ((deadFloorBird.update 1).1).currentState = BirdState.dead) :=
  C5_death_on_floor_amended.2.2 deadFloorBird 1 rfl (by with_unfolding_all decide)
    rfl (by with_unfolding_all decide) (by with_unfolding_all decide)
    (by with_unfolding_all decide) (by with_unfolding_all decide)
    (by with_unfolding_all decide) (by with_unfolding_all decide)

theorem Pipe.onCollision_core (p : Pipe) : pipeCore (p.onCollision) = pipeCore p := rfl

theorem checkCollisionsGo_none (object : Rect) :
    ∀ {l : List Pipe}, (checkCollisionsGo object l).2 = none →
      (checkCollisionsGo object l).1 = l ∧ ∀ p ∈ l, pipeOverlaps p object = false
  | [] => by intro _; exact ⟨rfl, by simp⟩
  | p :: rest => by
    unfold checkCollisionsGo Pipe.checkCollision
    cases hov : pipeOverlaps p object with
    | true => simp [hov]
    | false =>
      dsimp only
      rw [if_neg (by simp [hov])]
      dsimp only
      intro hn
      obtain ⟨h1, h2⟩ := checkCollisionsGo_none object (l := rest) hn
      refine ⟨by simp [h1], ?_⟩
      intro x hx
      rcases List.mem_cons.mp hx with rfl | hmem
      · exact hov
      · exact h2 x hmem

theorem checkCollisionsGo_some (object : Rect) :
    ∀ {l : List Pipe} {q : Pipe}, (checkCollisionsGo object l).2 = some q →
      ∃ l₁ p l₂, l = l₁ ++ p :: l₂ ∧ (∀ x ∈ l₁, pipeOverlaps x object = false) ∧
        pipeOverlaps p object = true ∧ q = p.onCollision ∧
        (checkCollisionsGo object l).1 = l₁ ++ p.onCollision :: l₂
  | [], q => by intro h; simp [checkCollisionsGo] at h
  | p :: rest, q => by
    unfold checkCollisionsGo Pipe.checkCollision
    cases hov : pipeOverlaps p object with
    | true =>
      rw [if_pos (by simp [hov])]
      dsimp only
      intro h
      refine ⟨[], p, rest, rfl, by simp, hov, ?_, ?_⟩
      · simpa using h.symm
      · simp
    | false =>
      rw [if_neg (by simp [hov])]
      dsimp only
      intro h
      obtain ⟨l₁, pm, l₂, hsplit, hpre, hhit, hq, hres⟩ :=
        checkCollisionsGo_some object (l := rest) (q := q) h
      refine ⟨p :: l₁, pm, l₂, by rw [hsplit]; rfl, ?_, hhit, hq, ?_⟩
      · intro x hx
        rcases List.mem_cons.mp hx with rfl | hmem
        · exact hov
        · exact hpre x hmem
      · rw [hres]
        rfl

theorem checkCollisionsGo_core (object : Rect) :
    ∀ l : List Pipe,
      ((checkCollisionsGo object l).1).map pipeCore = l.map pipeCore
  | [] => rfl
  | p :: rest => by
    unfold checkCollisionsGo Pipe.checkCollision
    cases hov : pipeOverlaps p object with
    | true =>
      rw [if_pos (by simp [hov])]
      dsimp only
      rw [List.map_cons, List.map_cons]
      simp [Pipe.onCollision_core]
    | false =>
      rw [if_neg (by simp [hov])]
      dsimp only
      rw [List.map_cons, List.map_cons]
      simp [checkCollisionsGo_core object rest]

/-- C9 (amended): `checkCollisions` returns the first active pipe whose
AABB strictly overlaps the object (or none): the free array, the active
identities, and every pipe's position and pass/score flags are untouched —
but the returned pipe has been mutated by `onCollision` (`shake = 10` plus
the collision particles), so the evaluation is not entirely side-effect
free. -/
theorem C9_checkCollisions_amended (pp : PipePool) (object : Rect) :
    ((pp.checkCollisions object).1).pool = pp.pool ∧
    ((pp.checkCollisions object).1).activeObjects.map pipeCore =
      pp.activeObjects.map pipeCore ∧
    ((pp.checkCollisions object).2 = none →
      (pp.checkCollisions object).1 = pp ∧
        ∀ p ∈ pp.activeObjects, pipeOverlaps p object = false) ∧
    (∀ q, (pp.checkCollisions object).2 = some q →
      q.shake = 10 ∧
      ∃ l₁ p l₂, pp.activeObjects = l₁ ++ p :: l₂ ∧
        (∀ x ∈ l₁, pipeOverlaps x object = false) ∧
        pipeOverlaps p object = true ∧ q = p.onCollision ∧
        ((pp.checkCollisions object).1).activeObjects =
          l₁ ++ p.onCollision :: l₂) := by
  refine ⟨rfl, checkCollisionsGo_core object pp.activeObjects, ?_, ?_⟩
  · intro hn
    obtain ⟨h1, h2⟩ := checkCollisionsGo_none object (l := pp.activeObjects) hn
    refine ⟨?_, h2⟩
    show { pp with activeObjects := (checkCollisionsGo object pp.activeObjects).1 } = pp
    rw [h1]
  · intro q hq
    obtain ⟨l₁, p, l₂, hsplit, hpre, hhit, hqe, hres⟩ :=
      checkCollisionsGo_some object (l := pp.activeObjects) hq
    exact ⟨by rw [hqe]; rfl, l₁, p, l₂, hsplit, hpre, hhit, hqe, hres⟩

set_option maxRecDepth 40000 in
/-- C9 (counterexample): evaluating `checkCollisions` on an overlapping
pipe mutates that pipe — its `shake` jumps from 0 to 10 and eight collision
particles appear — so the claim that the evaluation leaves every obstacle's
fields unchanged is false. -/
theorem C9_checkCollisions_counterexample :
    (poolOneActive.checkCollisions birdRectFx).2 = some (pipeTopFx.onCollision) ∧
    ((poolOneActive.checkCollisions birdRectFx).1).activeObjects =
      [pipeTopFx.onCollision] ∧
    pipeTopFx.shake = 0 ∧ (pipeTopFx.onCollision).shake = 10 ∧
    pipeTopFx.particles = 0 ∧ (pipeTopFx.onCollision).particles = 8 ∧
    (poolOneActive.checkCollisions birdRectFx).1 ≠ poolOneActive := by
  with_unfolding_all decide

set_option maxRecDepth 40000 in
/-- Witness for C9 (amended): the concrete one-pipe pool, where the
returned pipe is the mutated first overlapping pipe. -/
theorem C9_checkCollisions_amended_witness :
    (pipeTopFx.onCollision).shake = 10 ∧
    ∃ l₁ p l₂, poolOneActive.activeObjects = l₁ ++ p :: l₂ ∧
      (∀ x ∈ l₁, pipeOverlaps x birdRectFx = false) ∧
      pipeOverlaps p birdRectFx = true ∧ pipeTopFx.onCollision = p.onCollision ∧
      ((poolOneActive.checkCollisions birdRectFx).1).activeObjects =
        l₁ ++ p.onCollision :: l₂ :=
  (C9_checkCollisions_amended poolOneActive birdRectFx).2.2.2
    (pipeTopFx.onCollision) (by with_unfolding_all decide)

/-- C1 (amended): when a tick in the PLAYING state detects a collision
(after the bird survived its physics step), `updateGameplay` transitions to
GAME_OVER and returns before the pass/score phase runs — the score is left
unchanged, i.e. a same-tick collision SUPPRESSES the point rather than
awarding it first. -/
theorem C1_same_tick_collision_suppresses_score (g : Game) (dt sp now : ℚ)
    (halive : (g.ugBirdPhase dt).2 = true)
    (hcol : ((((g.ugBirdPhase dt).1.ugPipesPhase dt sp).ugCollisionPhase).2).isSome = true) :
    (g.updateGameplay dt sp now).score = g.score ∧
    (g.updateGameplay dt sp now).currentState = GState.gameOver := by
  unfold Game.updateGameplay
  dsimp only
  rw [if_neg (by simp [halive]), if_pos hcol]
  have h1 := Game.changeState_gameOver
    ((((g.ugBirdPhase dt).1.ugPipesPhase dt sp).ugCollisionPhase).1) now
  constructor
  · rw [h1.1, (Game.ugCollisionPhase_proj _).1, (Game.ugPipesPhase_proj _ dt sp).1]
    rfl
  · exact h1.2.1

set_option maxRecDepth 100000 in
/-- C1 (counterexample): a PLAYING tick of the concrete session in which
the bird overlaps the active top pipe AND has passed the (unpassed) bottom
pipe behind it.  The update ends the run with the score unchanged and the
pass flag never set: the pass-through point is NOT awarded before the
transition to GameOver. -/
theorem C1_same_tick_counterexample :
    ((baseGame.ugBirdPhase 16).2 = true) ∧
    (((((baseGame.ugBirdPhase 16).1.ugPipesPhase 16 0).ugCollisionPhase).2).isSome = true) ∧
    (∃ p ∈ (((baseGame.ugBirdPhase 16).1.ugPipesPhase 16 0)).pipePool.activeObjects,
        p.passed = false ∧
        (((baseGame.ugBirdPhase 16).1).bird.toRect.x > p.x + p.width)) ∧
    (baseGame.update 16 0 0).currentState = GState.gameOver ∧
    (baseGame.update 16 0 0).score = baseGame.score ∧
    (∀ p ∈ ((baseGame.update 16 0 0)).pipePool.activeObjects, p.passed = false) := by
  with_unfolding_all decide

/-- Witness for C1 (amended) at the same concrete session. -/
theorem C1_same_tick_collision_suppresses_score_witness :
    (baseGame.updateGameplay 16 0 0).score = baseGame.score ∧
    (baseGame.updateGameplay 16 0 0).currentState = GState.gameOver :=
  C1_same_tick_collision_suppresses_score baseGame 16 0 0
    (by with_unfolding_all decide) (by with_unfolding_all decide)

/-! Helper lemmas: scoring never decreases the score. -/
theorem psStep_facts (acc : PipePool × ℚ) (p : Pipe) :
    (psStep acc p).1.cfg = acc.1.cfg ∧
    (0 ≤ acc.1.cfg.pointsPerPipe → acc.2 ≤ (psStep acc p).2) := by
  unfold psStep
  cases h : acc.1.activeObjects.find? (fun q => q.id == p.id) with
  | some q =>
    dsimp only
    split
    · refine ⟨rfl, fun hP => le_add_of_nonneg_right ?_⟩
      split
      · exact hP
      · exact le_refl 0
    · exact ⟨rfl, fun _ => le_refl _⟩
  | none =>
    dsimp only
    split
    · refine ⟨rfl, fun hP => le_add_of_nonneg_right ?_⟩
      split
      · exact hP
      · exact le_refl 0
    · exact ⟨rfl, fun _ => le_refl _⟩

theorem psFold_facts (l : List Pipe) :
    ∀ acc : PipePool × ℚ,
      (l.foldl psStep acc).1.cfg = acc.1.cfg ∧
      (0 ≤ acc.1.cfg.pointsPerPipe → acc.2 ≤ (l.foldl psStep acc).2) := by
  induction l with
  | nil => exact fun acc => ⟨rfl, fun _ => le_refl _⟩
  | cons p l ih =>
    intro acc
    rw [List.foldl_cons]
    obtain ⟨hc, hm⟩ := psStep_facts acc p
    obtain ⟨hc2, hm2⟩ := ih (psStep acc p)
    exact ⟨hc2.trans hc, fun hP => (hm hP).trans (hm2 (by rw [hc]; exact hP))⟩

theorem PipePool.processScoring_nonneg (pp : PipePool) (l : List Pipe)
    (h : 0 ≤ pp.cfg.pointsPerPipe) : 0 ≤ (pp.processScoring l).2 :=
  (psFold_facts l (pp, 0)).2 h

theorem Game.ugScoringPhase_score_ge (g : Game) :
    g.score ≤ (g.ugScoringPhase).score := by
  unfold Game.ugScoringPhase
  dsimp only
  split
  · split
    · rename_i hpos
      exact le_add_of_nonneg_right (le_of_lt hpos)
    · exact le_refl _
  · exact le_refl _

theorem Game.updateGameplay_score_ge (g : Game) (dt sp now : ℚ) :
    g.score ≤ (g.updateGameplay dt sp now).score := by
  unfold Game.updateGameplay
  dsimp only
  split
  · rw [(Game.changeState_gameOver _ now).1]
    exact le_refl _
  · split
    · rw [(Game.changeState_gameOver _ now).1,
        (Game.ugCollisionPhase_proj _).1, (Game.ugPipesPhase_proj _ dt sp).1]
      exact le_refl _
    · show g.score ≤
        (((((g.ugBirdPhase dt).1.ugPipesPhase dt sp).ugCollisionPhase.1.ugScoringPhase).checkLevelProgression)).score
      rw [(Game.checkLevelProgression_proj _).1]
      have hc : ((((g.ugBirdPhase dt).1).ugPipesPhase dt sp).ugCollisionPhase.1).score
          = g.score := by
        rw [(Game.ugCollisionPhase_proj _).1, (Game.ugPipesPhase_proj _ dt sp).1]
        rfl
      rw [← hc]
      exact Game.ugScoringPhase_score_ge _

theorem Game.update_score_ge (g : Game) (dt sp now : ℚ) :
    g.score ≤ (g.update dt sp now).score := by
  unfold Game.update
  dsimp only
  rw [(Game.updateVisualEffects_proj _ dt).1]
  cases h : g.currentState <;>
    first
      | exact le_refl _
      | exact Game.updateGameplay_score_ge g dt sp now

theorem Game.changeState_score (g : Game) (s : GState) (now : ℚ) :
    (g.changeState s now).score = g.score := by
  unfold Game.changeState Game.resumeGame Game.pauseGame
  dsimp only
  split
  · rfl
  · cases s <;> first | rfl | exact (Game.endGame_proj _).1

theorem Game.restart_score (g : Game) (now : ℚ) : (g.restart now).score = 0 := by
  unfold Game.restart
  dsimp only
  show ((g.resetGame).changeState GState.playing now).score = 0
  rw [Game.changeState_score]
  rfl

theorem Game.startGame_score (g : Game) (now : ℚ) : (g.startGame now).score = 0 := by
  unfold Game.startGame
  dsimp only
  show ((g.resetGame).changeState GState.playing now).score = 0
  rw [Game.changeState_score]
  rfl

/-- C10: across every state, one invocation of the update pipeline never
decreases the score (the only mutation is `score += points` guarded by
`points > 0`, and `processScoring` returns non-negative points whenever the
configured scoring unit is non-negative); the score returns to 0 only
through the explicit reset performed by `startGame`/`restart`. -/
theorem C10_score_monotone (g : Game) (dt sp now : ℚ) :
    g.score ≤ (g.update dt sp now).score ∧
    (∀ (pp : PipePool) (l : List Pipe), 0 ≤ pp.cfg.pointsPerPipe →
        0 ≤ (pp.processScoring l).2) ∧
    (g.restart now).score = 0 ∧
    (g.startGame now).score = 0 :=
  ⟨Game.update_score_ge g dt sp now,
   fun pp l h => PipePool.processScoring_nonneg pp l h,
   Game.restart_score g now, Game.startGame_score g now⟩

/-- Witness for C10 at the concrete session (the hypothesis is the
non-negative configured scoring unit). -/
theorem C10_score_monotone_witness :
    baseGame.score ≤ (baseGame.update 16 0 0).score ∧
    0 ≤ (poolOneActive.processScoring [pipeBehindFx]).2 ∧
    (baseGame.restart 0).score = 0 := by
  refine ⟨(C10_score_monotone baseGame 16 0 0).1, ?_, (C10_score_monotone baseGame 16 0 0).2.2.1⟩
  exact (C10_score_monotone baseGame 16 0 0).2.1 poolOneActive [pipeBehindFx]
    (by with_unfolding_all decide)

theorem PipePool.acquire_flags (pp : PipePool) (x y : ℚ) (t : PipeType) (lvl : ℕ) :
    ((pp.acquire x y t lvl).2).passed = false ∧
    ((pp.acquire x y t lvl).2).scored = false := by
  unfold PipePool.acquire
  cases h : pp.pool.getLast? <;> exact ⟨rfl, rfl⟩

theorem PipePool.acquire_mem (pp : PipePool) (x y : ℚ) (t : PipeType) (lvl : ℕ) :
    (pp.acquire x y t lvl).2 ∈ ((pp.acquire x y t lvl).1).activeObjects := by
  unfold PipePool.acquire
  cases h : pp.pool.getLast? <;>
    · dsimp only
      exact List.mem_append_right _ (by simp)

theorem PipePool.release_found (pp : PipePool) (p : Pipe)
    (hmem : ∃ r ∈ pp.activeObjects, r.id = p.id) :
    (pp.release p).2 = true ∧
    ∃ q, q.id = p.id ∧
      ((pp.release p).1).pool = pp.pool ++ [PipePool.cleanPipe q] := by
  obtain ⟨r, hr, hrid⟩ := hmem
  have hs := releaseGo_isSome r hr hrid
  unfold PipePool.release
  cases hgo : releaseGo p.id pp.activeObjects with
  | none => rw [hgo] at hs; simp at hs
  | some qr =>
    obtain ⟨q, rest⟩ := qr
    exact ⟨rfl, q, (releaseGo_some hgo).1, rfl⟩

/-- C7: every obstacle handed out by `acquire` (reused from the free array
or freshly allocated) comes with `hasBeenPassed = hasBeenScored = false`,
and releasing it immediately succeeds and puts an obstacle with the same
identity and cleared flags back into the free array, preserving pool
well-formedness. -/
theorem C7_acquire_release_roundtrip (pp : PipePool) (x y : ℚ) (t : PipeType)
    (lvl : ℕ) (hwf : pp.wf) :
    ((pp.acquire x y t lvl).2).passed = false ∧
    ((pp.acquire x y t lvl).2).scored = false ∧
    (((pp.acquire x y t lvl).1).release ((pp.acquire x y t lvl).2)).2 = true ∧
    (∃ q ∈ ((((pp.acquire x y t lvl).1).release ((pp.acquire x y t lvl).2)).1).pool,
        q.id = ((pp.acquire x y t lvl).2).id ∧ q.passed = false ∧ q.scored = false) ∧
    ((((pp.acquire x y t lvl).1).release ((pp.acquire x y t lvl).2)).1).wf := by
  obtain ⟨hp, hsc⟩ := PipePool.acquire_flags pp x y t lvl
  have hmem : ∃ r ∈ ((pp.acquire x y t lvl).1).activeObjects,
      r.id = ((pp.acquire x y t lvl).2).id :=
    ⟨(pp.acquire x y t lvl).2, PipePool.acquire_mem pp x y t lvl, rfl⟩
  obtain ⟨hrel, q, hqid, hqpool⟩ :=
    PipePool.release_found ((pp.acquire x y t lvl).1) ((pp.acquire x y t lvl).2) hmem
  refine ⟨hp, hsc, hrel, ⟨PipePool.cleanPipe q, ?_, hqid, rfl, rfl⟩, ?_⟩
  · rw [hqpool]
    exact List.mem_append_right _ (by simp)
  · exact PipePool.release_wf _ _ (PipePool.acquire_wf pp x y t lvl hwf)

set_option maxRecDepth 40000 in
/-- Witness for C7 at the concrete two-pipe pool. -/
theorem C7_acquire_release_roundtrip_witness :
    ((poolFx.acquire 360 0 PipeType.top 1).2).passed = false ∧
    ((poolFx.acquire 360 0 PipeType.top 1).2).scored = false ∧
    (((poolFx.acquire 360 0 PipeType.top 1).1).release
      ((poolFx.acquire 360 0 PipeType.top 1).2)).2 = true ∧
    (∃ q ∈ ((((poolFx.acquire 360 0 PipeType.top 1).1).release
        ((poolFx.acquire 360 0 PipeType.top 1).2)).1).pool,
        q.id = ((poolFx.acquire 360 0 PipeType.top 1).2).id ∧
        q.passed = false ∧ q.scored = false) ∧
    ((((poolFx.acquire 360 0 PipeType.top 1).1).release
      ((poolFx.acquire 360 0 PipeType.top 1).2)).1).wf :=
  C7_acquire_release_roundtrip poolFx 360 0 PipeType.top 1
    (by with_unfolding_all decide)

/-- C3: pool well-formedness (each managed obstacle held exactly once across
`free`/`active`) and the membership XOR are preserved by `acquire`,
`release`, `releaseMultiple`, `updateActive` and `clear`; and a second
`release` of the same obstacle is a reported no-op (returns false and
changes nothing), so nothing is ever placed in `free` twice. -/
theorem C3_pool_membership_invariant (pp : PipePool) (x y dt : ℚ)
    (t : PipeType) (lvl : ℕ) (p : Pipe) (ps : List Pipe) (hwf : pp.wf) :
    pp.memXor ∧
    (((pp.acquire x y t lvl).1).wf ∧ ((pp.acquire x y t lvl).1).memXor) ∧
    (((pp.release p).1).wf ∧ ((pp.release p).1).memXor) ∧
    (((pp.releaseMultiple ps).1).wf ∧ ((pp.releaseMultiple ps).1).memXor) ∧
    ((pp.updateActive dt).wf ∧ (pp.updateActive dt).memXor) ∧
    ((pp.clear).wf ∧ (pp.clear).memXor) ∧
    ((pp.release p).2 = true →
      (((pp.release p).1).release p).2 = false ∧
      (((pp.release p).1).release p).1 = (pp.release p).1) := by
  have h1 := PipePool.acquire_wf pp x y t lvl hwf
  have h2 := PipePool.release_wf pp p hwf
  have h3 := PipePool.releaseMultiple_wf pp ps hwf
  have h4 := PipePool.updateActive_wf pp dt hwf
  have h5 := PipePool.clear_wf pp hwf
  exact ⟨PipePool.wf_memXor pp hwf,
    ⟨h1, PipePool.wf_memXor _ h1⟩, ⟨h2, PipePool.wf_memXor _ h2⟩,
    ⟨h3, PipePool.wf_memXor _ h3⟩, ⟨h4, PipePool.wf_memXor _ h4⟩,
    ⟨h5, PipePool.wf_memXor _ h5⟩,
    fun hs => PipePool.release_twice pp p hwf hs⟩

set_option maxRecDepth 40000 in
/-- Witness for C3 at the concrete two-pipe pool. -/
theorem C3_pool_membership_invariant_witness :
    poolFx.memXor ∧
    (((poolFx.acquire 360 0 PipeType.top 1).1).wf ∧
      ((poolFx.acquire 360 0 PipeType.top 1).1).memXor) ∧
    (((poolFx.release pipeBehindFx).1).wf ∧
      ((poolFx.release pipeBehindFx).1).memXor) ∧
    (((poolFx.releaseMultiple [pipeBehindFx]).1).wf ∧
      ((poolFx.releaseMultiple [pipeBehindFx]).1).memXor) ∧
    ((poolFx.updateActive 1).wf ∧ (poolFx.updateActive 1).memXor) ∧
    ((poolFx.clear).wf ∧ (poolFx.clear).memXor) ∧
    ((((poolFx.release pipeBehindFx).1).release pipeBehindFx).2 = false ∧
      (((poolFx.release pipeBehindFx).1).release pipeBehindFx).1 =
        (poolFx.release pipeBehindFx).1) := by
  have h := C3_pool_membership_invariant poolFx 360 0 1 PipeType.top 1
    pipeBehindFx [pipeBehindFx] (by with_unfolding_all decide)
  exact ⟨h.1, h.2.1, h.2.2.1, h.2.2.2.1, h.2.2.2.2.1, h.2.2.2.2.2.1,
    h.2.2.2.2.2.2 (by with_unfolding_all decide)⟩

theorem Pipe.markScored_isBottom (p : Pipe) :
    ((p.markScored).1).isBottom = p.isBottom := by
  unfold Pipe.markScored Pipe.createScoreParticles
  split <;> rfl

theorem Pipe.markScored_unscored (p : Pipe) (h : p.scored = false) :
    p.markScored = ({ p.createScoreParticles with scored := true }, true) := by
  unfold Pipe.markScored
  rw [if_pos (by simp [h])]

theorem Pipe.markScored_scored (p : Pipe) (h : p.scored = true) :
    p.markScored = (p, false) := by
  unfold Pipe.markScored
  rw [if_neg (by simp [h])]

theorem find?_map_upd_ne {l : List Pipe} {i j : ℕ} {m : Pipe}
    (hne : j ≠ i) (hm : m.id = i) :
    (l.map (fun r => if r.id == i then m else r)).find? (fun q => q.id == j) =
      l.find? (fun q => q.id == j) := by
  induction l with
  | nil => rfl
  | cons a l ih =>
    by_cases ha : a.id = i
    · rw [List.map_cons, if_pos (by simp [ha])]
      rw [List.find?_cons_of_neg _ (by simp [hm, Ne.symm hne]),
        List.find?_cons_of_neg _ (by simp [ha, Ne.symm hne])]
      exact ih
    · rw [List.map_cons, if_neg (by simp [ha])]
      by_cases haj : a.id = j
      · rw [List.find?_cons_of_pos _ (by simp [haj]),
          List.find?_cons_of_pos _ (by simp [haj])]
      · rw [List.find?_cons_of_neg _ (by simp [haj]),
          List.find?_cons_of_neg _ (by simp [haj])]
        exact ih

theorem find?_map_upd_eq {l : List Pipe} {i : ℕ} {m q : Pipe}
    (hm : m.id = i) (hfind : l.find? (fun r => r.id == i) = some q) :
    (l.map (fun r => if r.id == i then m else r)).find? (fun r => r.id == i) =
      some m := by
  induction l with
  | nil => simp at hfind
  | cons a l ih =>
    by_cases ha : a.id = i
    · rw [List.map_cons, if_pos (by simp [ha])]
      rw [List.find?_cons_of_pos _ (by simp [hm])]
    · rw [List.find?_cons_of_neg _ (by simp [ha])] at hfind
      rw [List.map_cons, if_neg (by simp [ha])]
      rw [List.find?_cons_of_neg _ (by simp [ha])]
      exact ih hfind

theorem updActive_byId_eq (pp : PipePool) (i : ℕ) (m q : Pipe)
    (hm : m.id = i) (h : pp.activeById i = some q) :
    (updActive pp i m).activeById i = some m := by
  show (pp.activeObjects.map (fun r => if r.id == i then m else r)).find?
    (fun r => r.id == i) = some m
  exact find?_map_upd_eq hm h

theorem updActive_byId_ne (pp : PipePool) (i j : ℕ) (m : Pipe)
    (hne : j ≠ i) (hm : m.id = i) :
    (updActive pp i m).activeById j = pp.activeById j := by
  show (pp.activeObjects.map (fun r => if r.id == i then m else r)).find?
    (fun q => q.id == j) = pp.activeObjects.find? (fun q => q.id == j)
  exact find?_map_upd_ne hne hm

theorem psCall (it ib : ℕ) (tq : Pipe) (hne : it ≠ ib) (htb : tq.isBottom = false) :
    ∀ (c : List Pipe) (pp : PipePool) (s : ℚ) (bqcur : Pipe),
      (∀ p ∈ c, p.id = it ∨ p.id = ib) →
      pp.activeById ib = some bqcur → bqcur.isBottom = true →
      pp.activeById it = some tq →
      ∃ bq2,
        ((c.foldl psStep (pp, s)).1).activeById ib = some bq2 ∧
        bq2.isBottom = true ∧
        ((c.foldl psStep (pp, s)).1).activeById it = some tq ∧
        ((c.foldl psStep (pp, s)).1).cfg = pp.cfg ∧
        bq2.scored = (bqcur.scored || c.any (fun p => p.id == ib)) ∧
        (c.foldl psStep (pp, s)).2 =
          s + (if bqcur.scored = false ∧ c.any (fun p => p.id == ib) = true
               then pp.cfg.pointsPerPipe else 0) := by
  intro c
  induction c with
  | nil =>
    intro pp s bqcur _ hB hBb hT
    refine ⟨bqcur, hB, hBb, hT, rfl, by simp, by simp⟩
  | cons p c ih =>
    intro pp s bqcur hc hB hBb hT
    rcases hc p (List.mem_cons_self p c) with hp | hp
    · -- the passed pipe is the top half: the step is a no-op
      have hfind : pp.activeObjects.find? (fun q => q.id == p.id) = some tq := by
        rw [hp]
        exact hT
      have hps : psStep (pp, s) p = (pp, s) := by
        unfold psStep
        dsimp only
        rw [hfind]
        dsimp only
        rw [if_neg (by rw [htb]; simp)]
      rw [List.foldl_cons, hps]
      obtain ⟨bq2, h1, h2, h3, h4, h5, h6⟩ :=
        ih pp s bqcur (fun q hq => hc q (List.mem_cons_of_mem p hq)) hB hBb hT
      have hpid : (p.id == ib) = false := by
        rw [hp]
        simp [hne]
      refine ⟨bq2, h1, h2, h3, h4, ?_, ?_⟩
      · rw [h5, List.any_cons, hpid]
        simp
      · rw [h6, List.any_cons, hpid]
        simp
    · -- the passed pipe is the bottom half
      have hfind : pp.activeObjects.find? (fun q => q.id == p.id) = some bqcur := by
        rw [hp]
        exact hB
      have hbid : bqcur.id = ib := by
        have := List.find?_some hB
        simpa using this
      have hpid : (p.id == ib) = true := by simp [hp]
      cases hsc : bqcur.scored with
      | false =>
        have hmark := Pipe.markScored_unscored bqcur hsc
        have hps : psStep (pp, s) p =
            (updActive pp p.id ((bqcur.markScored).1), s + pp.cfg.pointsPerPipe) := by
          unfold psStep updActive
          dsimp only
          rw [hfind]
          dsimp only
          rw [if_pos (by rw [hBb])]
          rw [hmark]
          rfl
        rw [List.foldl_cons, hps]
        have hmid : ((bqcur.markScored).1).id = ib := by
          rw [Pipe.markScored_id]
          exact hbid
        have hB2 : (updActive pp p.id ((bqcur.markScored).1)).activeById ib =
            some ((bqcur.markScored).1) := by
          rw [hp] at *
          exact updActive_byId_eq pp ib _ bqcur hmid hB
        have hT2 : (updActive pp p.id ((bqcur.markScored).1)).activeById it =
            some tq := by
          rw [hp] at *
          rw [updActive_byId_ne pp ib it _ hne hmid]
          exact hT
        have hmb : ((bqcur.markScored).1).isBottom = true := by
          rw [Pipe.markScored_isBottom]
          exact hBb
        obtain ⟨bq2, h1, h2, h3, h4, h5, h6⟩ :=
          ih _ (s + pp.cfg.pointsPerPipe) _
            (fun q hq => hc q (List.mem_cons_of_mem p hq)) hB2 hmb hT2
        have hms : ((bqcur.markScored).1).scored = true := by
          rw [hmark]
        refine ⟨bq2, h1, h2, h3, by rw [h4]; rfl, ?_, ?_⟩
        · rw [h5]
          simp [hms, List.any_cons, hpid, hsc]
        · rw [h6]
          have hcfg : (updActive pp p.id ((bqcur.markScored).1)).cfg.pointsPerPipe =
              pp.cfg.pointsPerPipe := rfl
          rw [hcfg]
          simp [hms, List.any_cons, hpid, hsc]
      | true =>
        have hmark := Pipe.markScored_scored bqcur hsc
        have hps : psStep (pp, s) p = (updActive pp p.id bqcur, s) := by
          unfold psStep updActive
          dsimp only
          rw [hfind]
          dsimp only
          rw [if_pos (by rw [hBb])]
          rw [hmark]
          simp
        rw [List.foldl_cons, hps]
        have hB2 : (updActive pp p.id bqcur).activeById ib = some bqcur := by
          rw [hp] at *
          exact updActive_byId_eq pp ib bqcur bqcur hbid hB
        have hT2 : (updActive pp p.id bqcur).activeById it = some tq := by
          rw [hp] at *
          rw [updActive_byId_ne pp ib it bqcur hne hbid]
          exact hT
        obtain ⟨bq2, h1, h2, h3, h4, h5, h6⟩ :=
          ih _ s bqcur (fun q hq => hc q (List.mem_cons_of_mem p hq)) hB2 hBb hT2
        refine ⟨bq2, h1, h2, h3, by rw [h4]; rfl, ?_, ?_⟩
        · rw [h5, hsc]
          simp
        · rw [h6, hsc]
          simp

theorem psSeq (it ib : ℕ) (tq : Pipe) (hne : it ≠ ib) (htb : tq.isBottom = false) :
    ∀ (calls : List (List Pipe)) (pp : PipePool) (bqcur : Pipe),
      (∀ c ∈ calls, ∀ p ∈ c, p.id = it ∨ p.id = ib) →
      pp.activeById ib = some bqcur → bqcur.isBottom = true →
      pp.activeById it = some tq →
      ∃ bq2,
        ((pp.processScoringSeq calls).1).activeById ib = some bq2 ∧
        bq2.isBottom = true ∧
        ((pp.processScoringSeq calls).1).activeById it = some tq ∧
        ((pp.processScoringSeq calls).1).cfg = pp.cfg ∧
        bq2.scored =
          (bqcur.scored || calls.any (fun c => c.any (fun p => p.id == ib))) ∧
        (pp.processScoringSeq calls).2 =
          (if bqcur.scored = false ∧
              calls.any (fun c => c.any (fun p => p.id == ib)) = true
           then pp.cfg.pointsPerPipe else 0) := by
  intro calls
  induction calls with
  | nil =>
    intro pp bqcur _ hB hBb hT
    refine ⟨bqcur, hB, hBb, hT, rfl, by simp, by simp [PipePool.processScoringSeq]⟩
  | cons c cs ih =>
    intro pp bqcur hcalls hB hBb hT
    obtain ⟨bq1, g1, g2, g3, g4, g5, g6⟩ :=
      psCall it ib tq hne htb c pp 0 bqcur
        (hcalls c (List.mem_cons_self c cs)) hB hBb hT
    obtain ⟨bq2, k1, k2, k3, k4, k5, k6⟩ :=
      ih ((pp.processScoring c).1) bq1
        (fun d hd => hcalls d (List.mem_cons_of_mem c hd)) g1 g2 g3
    have hseq : pp.processScoringSeq (c :: cs) =
        (((pp.processScoring c).1.processScoringSeq cs).1,
         (pp.processScoring c).2 +
           ((pp.processScoring c).1.processScoringSeq cs).2) := rfl
    rw [hseq]
    refine ⟨bq2, k1, k2, k3, by rw [k4]; exact g4, ?_, ?_⟩
    · rw [k5, g5, List.any_cons, Bool.or_assoc]
    · have hpc : pp.processScoring c = c.foldl psStep (pp, 0) := rfl
      rw [k6, hpc, g4, g6, g5, List.any_cons]
      cases hsc : bqcur.scored with
      | false =>
        cases hm1 : c.any (fun p => p.id == ib) with
        | false => simp
        | true => simp
      | true => simp

/-- C4: for a top/bottom pair both active in the pool (the top half not a
bottom, the bottom half unscored), any sequence of `processScoring`
invocations whose passed pipes are drawn from the pair yields in total
exactly one scoring unit (`POINTS_PER_PIPE`) provided the bottom half is
mentioned at least once — regardless of how the passed obstacles are split
across ticks or repeated; the top half's entry is never touched (only the
Bottom half is ever marked scored) and the bottom half ends marked. -/
theorem C4_pair_scores_exactly_once (pp : PipePool) (it ib : ℕ) (tq bq : Pipe)
    (ht : pp.activeById it = some tq) (htb : tq.isBottom = false)
    (hb : pp.activeById ib = some bq) (hbb : bq.isBottom = true)
    (hbs : bq.scored = false)
    (calls : List (List Pipe))
    (hcalls : ∀ c ∈ calls, ∀ p ∈ c, p.id = it ∨ p.id = ib)
    (hmention : calls.any (fun c => c.any (fun p => p.id == ib)) = true) :
    (pp.processScoringSeq calls).2 = pp.cfg.pointsPerPipe ∧
    ((pp.processScoringSeq calls).1).activeById it = some tq ∧
    (∃ bq2, ((pp.processScoringSeq calls).1).activeById ib = some bq2 ∧
      bq2.isBottom = true ∧ bq2.scored = true) := by
  have hne : it ≠ ib := by
    intro heq
    rw [heq] at ht
    have h2 : bq = tq := Option.some_injective _ (hb.symm.trans ht)
    rw [h2, htb] at hbb
    exact Bool.false_ne_true hbb
  obtain ⟨bq2, g1, g2, g3, g4, g5, g6⟩ :=
    psSeq it ib tq hne htb calls pp bq hcalls hb hbb ht
  refine ⟨?_, g3, bq2, g1, g2, ?_⟩
  · rw [g6, hbs, hmention]
    simp
  · rw [g5, hbs, hmention]
    rfl

set_option maxRecDepth 40000 in
/-- Witness for C4: the concrete pair, scored, re-submitted and split
across four invocations, still totals exactly one scoring unit. -/
theorem C4_pair_scores_exactly_once_witness :
    (poolPair.processScoringSeq scoringCalls).2 = poolPair.cfg.pointsPerPipe ∧
    ((poolPair.processScoringSeq scoringCalls).1).activeById 0 = some pipeTopFx ∧
    (∃ bq2, ((poolPair.processScoringSeq scoringCalls).1).activeById 1 = some bq2 ∧
      bq2.isBottom = true ∧ bq2.scored = true) :=
  C4_pair_scores_exactly_once poolPair 0 1 pipeTopFx pipeBehindFx
    (by with_unfolding_all decide) (by with_unfolding_all decide)
    (by with_unfolding_all decide) (by with_unfolding_all decide)
    (by with_unfolding_all decide) scoringCalls
    (by with_unfolding_all decide) (by with_unfolding_all decide)
